import Mathlib

/-!
Verification development for the MongoDB agent check
(`mongo/datadog_checks/mongo/mongo.py`): metric extraction, name
normalization, collection-plan building, custom-query validation and
execution, replica-set state tracking, and the check orchestrator.

Modelling conventions:
* Python dicts are modelled as association lists; lookup takes the first
  matching key and `dict.update` prepends the new entries, so later
  writes win, matching Python map semantics (iteration order of the
  model can differ from CPython, but no settled claim depends on it).
* Python numbers (`int`, `long`, `float`, and `bool`, which is an `int`
  subclass) are modelled as a single integer constructor `BVal.num`.
* Exceptions are modelled by `Except` with a `PyError` payload carrying
  the exception class name and its message.
-/

namespace MongoCheck

/-- Python exception value: class name plus `str(e)` message. -/
structure PyError where
  ename : String
  msg : String
deriving DecidableEq, Repr

/-- Model of `repr(e)` for an exception: class name applied to the message.
Python would quote the message; the quotes are immaterial to the substring
tests the check performs, so they are omitted. -/
def pyRepr (e : PyError) : String := e.ename ++ "(" ++ e.msg ++ ")"

/-- Tree of BSON/JSON-like values making up a status document
(`StatusDocument` in the spec): numbers, strings, nested mappings and
arrays, per spec section 9 a tagged-union tree. -/
inductive BVal where
  | num (n : Int)
  | str (s : String)
  | doc (fields : List (String × BVal))
  | arr (elems : List BVal)

/-- First-match association-list lookup: Python `d[k]` / `d.get(k)`. -/
def lookupKey {α : Type} : List (String × α) → String → Option α
  | [], _ => none
  | (k, v) :: rest, key => if k = key then some v else lookupKey rest key

/-- Python `k in d`. -/
def containsKey {α : Type} (d : List (String × α)) (key : String) : Bool :=
  (lookupKey d key).isSome

/-- Python `d[k] = v`: replace the binding if present, else append. -/
def setKey {α : Type} : List (String × α) → String → α → List (String × α)
  | [], key, v => [(key, v)]
  | (k, w) :: rest, key, v =>
    if k = key then (k, v) :: rest else (k, w) :: setKey rest key v

/-- Python `del d[k]`: drop every binding of the key (a dict holds at
most one). -/
def eraseKey {α : Type} (d : List (String × α)) (key : String) : List (String × α) :=
  d.filter (fun p => p.1 ≠ key)

/-- Python `d.update(new)` under first-match lookup semantics: entries of
`new` shadow entries of `d`. -/
def dictUpdate {α : Type} (d new : List (String × α)) : List (String × α) :=
  new ++ d

/-- If the first list is a prefix of the second, the remainder after it. -/
def stripPre : List Char → List Char → Option (List Char)
  | [], l => some l
  | _ :: _, [] => none
  | p :: ps, c :: cs => if c = p then stripPre ps cs else none

/-- Python `s.startswith(pre)`. -/
def strStartsWith (s pre : String) : Bool := (stripPre pre.data s.data).isSome

/-- Python `s.endswith(suf)`. -/
def strEndsWith (s suf : String) : Bool := (stripPre suf.data.reverse s.data.reverse).isSome

/-- Python `s[:-2]`. -/
def strDropRight2 (s : String) : String := ⟨(s.data.reverse.drop 2).reverse⟩

/-- Python `s.lower()` (ASCII). -/
def strToLower (s : String) : String := ⟨s.data.map Char.toLower⟩

/-- Python `s.split(sep)` for a single-character separator, on the
character list: split at every separator occurrence, keeping empty
pieces. -/
def splitCharAux (sep : Char) : List Char → List (List Char)
  | [] => [[]]
  | c :: rest =>
    match splitCharAux sep rest with
    | [] => [[]]
    | g :: gs => if c = sep then [] :: g :: gs else (c :: g) :: gs

/-- Python `s.split(sep)` for a single-character separator. -/
def pySplitC (s : String) (sep : Char) : List String :=
  (splitCharAux sep s.data).map (fun cs => (⟨cs⟩ : String))

/-- Whether the pattern occurs in the list (at any position). -/
def containsSubAux (pat : List Char) : List Char → Bool
  | [] => pat.isEmpty
  | c :: rest => (stripPre pat (c :: rest)).isSome || containsSubAux pat rest

/-- Substring test (Python `pat in hay`). -/
def containsSubstr (hay pat : String) : Bool := containsSubAux pat.data hay.data

/-- The remainder after the first occurrence of the pattern, if any. -/
def afterFirstSub (pat : List Char) : List Char → Option (List Char)
  | [] => if pat.isEmpty then some [] else none
  | c :: rest =>
    match stripPre pat (c :: rest) with
    | some rem => some rem
    | none => afterFirstSub pat rest

/-- Python `str(v)` as used when a document value is spliced into a tag. -/
def formatBVal : BVal → String
  | .num n => toString n
  | .str s => s
  | .doc _ => "<dict>"
  | .arr _ => "<list>"

/-- Python truthiness of a document value (`if not value`). -/
def pyTruthy : BVal → Bool
  | .num n => n != 0
  | .str s => s != ""
  | .doc fs => !fs.isEmpty
  | .arr xs => !xs.isEmpty

/-- Python truthiness of an optional string (`if not s`): absent and empty
are both falsy. -/
def truthyOptStr : Option String → Bool
  | none => false
  | some s => s ≠ ""

/-- Python `float(v)`: numbers coerce to themselves, numeric strings
parse (modelled for integer literals), everything else raises
`TypeError`/`ValueError`, modelled as `none`. -/
def pyFloat : BVal → Option Int
  | .num n => some n
  | .str s => s.toInt?
  | .doc _ => none
  | .arr _ => none

/-- Python `int(v)`: same coercion domain as `pyFloat` in this model. -/
def pyInt (v : BVal) : Except PyError Int :=
  match pyFloat v with
  | some n => .ok n
  | none => .error ⟨"TypeError", "int() argument is not an int or string"⟩

/-- Rough `type(v)` name, used only inside error messages. -/
def pyTypeName : BVal → String
  | .num _ => "int"
  | .str _ => "str"
  | .doc _ => "dict"
  | .arr _ => "list"

/-- Error raised by one subscription step `value[c]`. -/
inductive WalkErr where
  | keyError
  | typeError
deriving DecidableEq, Repr

/-- One step `value[c]` of the extraction walk: a mapping either holds the
key (`KeyError` otherwise); subscribing a number, a string or an array by
a string key raises `TypeError` in Python. -/
def getItemB : BVal → String → Except WalkErr BVal
  | .doc fs, k =>
    match lookupKey fs k with
    | some v => .ok v
    | none => .error .keyError
  | .num _, _ => .error .typeError
  | .str _, _ => .error .typeError
  | .arr _, _ => .error .typeError

/-- The extraction walk `for c in metric_name.split("."): value = value[c]`
over an already split path. -/
def walkPath : BVal → List String → Except WalkErr BVal
  | v, [] => .ok v
  | v, k :: rest =>
    match getItemB v k with
    | .ok v2 => walkPath v2 rest
    | .error e => .error e

/-- Outcome of processing one catalog field path against the status
document in the main metric loop (`check`, the walk wrapped in
`try ... except KeyError: continue` followed by the numeric check). -/
inductive ProcessResult where
  /-- The value was found and is numeric: it will be submitted. -/
  | submit (n : Int)
  /-- A `KeyError` during the walk is caught and the metric skipped. -/
  | skip
  /-- A `TypeError` raised by subscripting a non-mapping during the walk;
  the surrounding `except KeyError` does not catch it. -/
  | errorNotSubscriptable
  /-- The value is present but not numeric: the check raises `TypeError`
  deliberately. -/
  | errorTypeMismatch
deriving DecidableEq, Repr

/-- Lines 1003-1015 of `check`: walk the dotted path through the status
document catching only `KeyError`, then insist the found value is
numeric. -/
def processStatusMetric (status : BVal) (metricName : String) : ProcessResult :=
  match walkPath status (pySplitC metricName '.') with
  | .error .keyError => .skip
  | .error .typeError => .errorNotSubscriptable
  | .ok v =>
    match v with
    | .num n => .submit n
    | _ => .errorTypeMismatch

/-- The `PyError` corresponding to a `ProcessResult` fatal outcome of the
main metric loop, if any. -/
def processErrOf (metricName : String) (status : BVal) : ProcessResult → Option PyError
  | .submit _ => none
  | .skip => none
  | .errorNotSubscriptable => some ⟨"TypeError", "object is not subscriptable"⟩
  | .errorTypeMismatch =>
    match walkPath status (pySplitC metricName '.') with
    | .ok v =>
      some ⟨"TypeError", metricName ++ " value is a " ++ pyTypeName v ++
        ", it should be an int, a float or a long instead."⟩
    | .error _ => none

/-- Submission kind of a metric (`gauge`/`rate` in the catalog; custom
queries additionally allow `count` and `monotonic_count`). -/
inductive SubmitKind where
  | gauge
  | rate
  | count
  | monotonic_count
deriving DecidableEq, Repr

/-- A catalog entry value: bare kind, or kind plus a name alias (the
`metric_type` vs `(metric_type, alias)` forms of the source tables). -/
structure MetricDef where
  kind : SubmitKind
  alias? : Option String
deriving DecidableEq, Repr

/-- Catalog entry without alias (a `path: TYPE` line of a metric table). -/
def mg (path : String) : String × MetricDef := (path, ⟨.gauge, none⟩)

/-- Catalog entry without alias, rate kind. -/
def mr (path : String) : String × MetricDef := (path, ⟨.rate, none⟩)

/-- Catalog entry with alias, gauge kind. -/
def mga (path al : String) : String × MetricDef := (path, ⟨.gauge, some al⟩)

/-- Catalog entry with alias, rate kind. -/
def mra (path al : String) : String × MetricDef := (path, ⟨.rate, some al⟩)

/-- Word character in the sense of the regex `\b` word boundary
(ASCII here; all catalog names are ASCII). -/
def isWordChar (c : Char) : Bool := c.isAlphanum || c = '_'

/-- Whether the regex `\b` boundary holds just before this suffix, that
is, the suffix is empty or starts with a non-word character. -/
def rightBoundary : List Char → Bool
  | [] => true
  | c :: _ => !isWordChar c

/-- One pass of `re.compile(pattern).sub(repl, name)` for a pattern of the
form `\.X\b` with `X` a single letter: scan left to right, replace each
non-overlapping occurrence of `.X` that is followed by a word boundary,
and continue after the replaced text. -/
def subTokenChars (x : Char) (repl : List Char) : List Char → List Char
  | [] => []
  | [c] => [c]
  | c :: c2 :: rest =>
    if c = '.' ∧ c2 = x ∧ rightBoundary rest then
      repl ++ subTokenChars x repl rest
    else
      c :: subTokenChars x repl (c2 :: rest)

/-- Whether the pattern `\.X\b` matches anywhere in the character list:
a literal dot, the letter, and a word boundary. -/
def hasTokenIn (x : Char) : List Char → Bool
  | [] => false
  | [_] => false
  | c :: c2 :: rest =>
    if c = '.' ∧ c2 = x ∧ rightBoundary rest then true
    else hasTokenIn x (c2 :: rest)

/-- `CASE_SENSITIVE_METRIC_NAME_SUFFIXES`: the regex pattern `\.X\b` is
recorded as its letter `X`, paired with the replacement text. Insertion
order of the source dict is kept; the four patterns are mutually
exclusive, so the order is immaterial. -/
def CASE_SENSITIVE_METRIC_NAME_SUFFIXES : List (Char × String) :=
  [('R', ".shared"), ('r', ".intent_shared"), ('W', ".exclusive"), ('w', ".intent_exclusive")]

/-- The character-level substitution loop of `_normalize`: one
`subTokenChars` pass per configured pattern, in order. -/
def charSubsAll (l : List Char) : List Char :=
  CASE_SENSITIVE_METRIC_NAME_SUFFIXES.foldl (fun cs p => subTokenChars p.1 p.2.data cs) l

/-- The substitution loop of `_normalize`: apply each case-sensitive
pattern in turn. -/
def applySuffixSubs (name : String) : String := ⟨charSubsAll name.data⟩

/-- Modelled from the spec: `AgentCheck.normalize` (the submission layer
name normalization, outside this module) performs separator
normalization and is the identity on names made of alphanumerics,
underscores and dots; any other character becomes an underscore. -/
def baseNormalize (s : String) : String :=
  ⟨s.data.map (fun c => if c.isAlphanum || c = '.' || c = '_' then c else '_')⟩

/-- `_normalize`: apply the case-sensitive substitutions, lower-case,
normalize, then wrap with the `mongodb.` name space (extended by the
optional extra segment) and the `ps` rate suffix. -/
def mongoNormalize (metricName : String) (submitMethod : SubmitKind) (pfx : String) : String :=
  let metricPfx := if pfx = "" then "mongodb." else "mongodb." ++ pfx ++ "."
  let metricSfx := if submitMethod = .rate then "ps" else ""
  metricPfx ++ baseNormalize (strToLower (applySuffixSubs metricName)) ++ metricSfx

/-- `_resolve_metric`: look the path up in the metric table (a missing
path raises `KeyError`, which no caller of this helper catches), take the
alias when the entry carries one, and normalize. -/
def resolveMetric (metricsToCollect : List (String × MetricDef)) (originalMetricName : String)
    (pfx : String) : Except PyError (SubmitKind × String) :=
  match lookupKey metricsToCollect originalMetricName with
  | none => .error ⟨"KeyError", originalMetricName⟩
  | some d =>
    let metricName := match d.alias? with
      | some al => al
      | none => originalMetricName
    .ok (d.kind, mongoNormalize metricName d.kind pfx)

/-- `BASE_METRICS`: core metrics collected by default. -/
def BASE_METRICS : List (String × MetricDef) :=
  [mr "asserts.msg", mr "asserts.regular", mr "asserts.rollovers", mr "asserts.user",
   mr "asserts.warning", mg "backgroundFlushing.average_ms", mr "backgroundFlushing.flushes",
   mg "backgroundFlushing.last_ms", mg "backgroundFlushing.total_ms",
   mg "connections.available", mg "connections.current", mg "connections.totalCreated",
   mg "cursors.timedOut", mg "cursors.totalOpen", mr "extra_info.heap_usage_bytes",
   mr "extra_info.page_faults", mg "fsyncLocked", mg "globalLock.activeClients.readers",
   mg "globalLock.activeClients.total", mg "globalLock.activeClients.writers",
   mg "globalLock.currentQueue.readers", mg "globalLock.currentQueue.total",
   mg "globalLock.currentQueue.writers", mg "globalLock.lockTime", mg "globalLock.ratio",
   mg "globalLock.totalTime", mr "indexCounters.accesses", mr "indexCounters.btree.accesses",
   mr "indexCounters.btree.hits", mr "indexCounters.btree.misses",
   mg "indexCounters.btree.missRatio", mr "indexCounters.hits", mr "indexCounters.misses",
   mg "indexCounters.missRatio", mr "indexCounters.resets", mg "mem.bits", mg "mem.mapped",
   mg "mem.mappedWithJournal", mg "mem.resident", mg "mem.virtual",
   mg "metrics.cursor.open.noTimeout", mg "metrics.cursor.open.pinned",
   mg "metrics.cursor.open.total", mr "metrics.cursor.timedOut", mr "metrics.document.deleted",
   mr "metrics.document.inserted", mr "metrics.document.returned", mr "metrics.document.updated",
   mr "metrics.getLastError.wtime.num", mr "metrics.getLastError.wtime.totalMillis",
   mr "metrics.getLastError.wtimeouts", mr "metrics.operation.fastmod",
   mr "metrics.operation.idhack", mr "metrics.operation.scanAndOrder",
   mr "metrics.operation.writeConflicts", mr "metrics.queryExecutor.scanned",
   mr "metrics.record.moves", mr "metrics.repl.apply.batches.num",
   mr "metrics.repl.apply.batches.totalMillis", mr "metrics.repl.apply.ops",
   mg "metrics.repl.buffer.count", mg "metrics.repl.buffer.maxSizeBytes",
   mg "metrics.repl.buffer.sizeBytes", mr "metrics.repl.network.bytes",
   mr "metrics.repl.network.getmores.num", mr "metrics.repl.network.getmores.totalMillis",
   mr "metrics.repl.network.ops", mr "metrics.repl.network.readersCreated",
   mr "metrics.repl.oplog.insert.num", mr "metrics.repl.oplog.insert.totalMillis",
   mr "metrics.repl.oplog.insertBytes", mr "metrics.repl.preload.docs.num",
   mr "metrics.repl.preload.docs.totalMillis", mr "metrics.repl.preload.indexes.num",
   mr "metrics.repl.preload.indexes.totalMillis",
   mr "metrics.repl.storage.freelist.search.bucketExhausted",
   mr "metrics.repl.storage.freelist.search.requests",
   mr "metrics.repl.storage.freelist.search.scanned", mr "metrics.ttl.deletedDocuments",
   mr "metrics.ttl.passes", mr "network.bytesIn", mr "network.bytesOut",
   mr "network.numRequests", mr "opcounters.command", mr "opcounters.delete",
   mr "opcounters.getmore", mr "opcounters.insert", mr "opcounters.query",
   mr "opcounters.update", mr "opcountersRepl.command", mr "opcountersRepl.delete",
   mr "opcountersRepl.getmore", mr "opcountersRepl.insert", mr "opcountersRepl.query",
   mr "opcountersRepl.update", mg "oplog.logSizeMB", mg "oplog.usedSizeMB",
   mg "oplog.timeDiff", mg "replSet.health", mg "replSet.replicationLag", mg "replSet.state",
   mg "replSet.votes", mg "replSet.voteFraction", mg "stats.avgObjSize",
   mg "stats.collections", mg "stats.dataSize", mg "stats.fileSize", mg "stats.indexes",
   mg "stats.indexSize", mg "stats.nsSizeMB", mg "stats.numExtents", mg "stats.objects",
   mg "stats.storageSize", mg "uptime"]

/-- `DURABILITY_METRICS`: journaling report. -/
def DURABILITY_METRICS : List (String × MetricDef) :=
  [mg "dur.commits", mg "dur.commitsInWriteLock", mg "dur.compression", mg "dur.earlyCommits",
   mg "dur.journaledMB", mg "dur.timeMs.dt", mg "dur.timeMs.prepLogBuffer",
   mg "dur.timeMs.remapPrivateView", mg "dur.timeMs.writeToDataFiles",
   mg "dur.timeMs.writeToJournal", mg "dur.writeToDataFilesMB", mg "dur.timeMs.commits",
   mg "dur.timeMs.commitsInWriteLock"]

/-- `COMMANDS_METRICS`: use of database commands report. -/
def COMMANDS_METRICS : List (String × MetricDef) :=
  [mr "metrics.commands.count.failed", mg "metrics.commands.count.total",
   mr "metrics.commands.createIndexes.failed", mg "metrics.commands.createIndexes.total",
   mr "metrics.commands.delete.failed", mg "metrics.commands.delete.total",
   mr "metrics.commands.eval.failed", mg "metrics.commands.eval.total",
   mr "metrics.commands.findAndModify.failed", mg "metrics.commands.findAndModify.total",
   mr "metrics.commands.insert.failed", mg "metrics.commands.insert.total",
   mr "metrics.commands.update.failed", mg "metrics.commands.update.total"]

/-- `LOCKS_METRICS`: server-status locks report. -/
def LOCKS_METRICS : List (String × MetricDef) :=
  [mr "locks.Collection.acquireCount.R", mr "locks.Collection.acquireCount.r",
   mr "locks.Collection.acquireCount.W", mr "locks.Collection.acquireCount.w",
   mr "locks.Collection.acquireWaitCount.R", mr "locks.Collection.acquireWaitCount.W",
   mr "locks.Collection.timeAcquiringMicros.R", mr "locks.Collection.timeAcquiringMicros.W",
   mr "locks.Database.acquireCount.r", mr "locks.Database.acquireCount.R",
   mr "locks.Database.acquireCount.w", mr "locks.Database.acquireCount.W",
   mr "locks.Database.acquireWaitCount.r", mr "locks.Database.acquireWaitCount.R",
   mr "locks.Database.acquireWaitCount.w", mr "locks.Database.acquireWaitCount.W",
   mr "locks.Database.timeAcquiringMicros.r", mr "locks.Database.timeAcquiringMicros.R",
   mr "locks.Database.timeAcquiringMicros.w", mr "locks.Database.timeAcquiringMicros.W",
   mr "locks.Global.acquireCount.r", mr "locks.Global.acquireCount.R",
   mr "locks.Global.acquireCount.w", mr "locks.Global.acquireCount.W",
   mr "locks.Global.acquireWaitCount.r", mr "locks.Global.acquireWaitCount.R",
   mr "locks.Global.acquireWaitCount.w", mr "locks.Global.acquireWaitCount.W",
   mr "locks.Global.timeAcquiringMicros.r", mr "locks.Global.timeAcquiringMicros.R",
   mr "locks.Global.timeAcquiringMicros.w", mr "locks.Global.timeAcquiringMicros.W",
   mr "locks.Metadata.acquireCount.R", mr "locks.Metadata.acquireCount.W",
   mr "locks.MMAPV1Journal.acquireCount.r", mr "locks.MMAPV1Journal.acquireCount.w",
   mr "locks.MMAPV1Journal.acquireWaitCount.r", mr "locks.MMAPV1Journal.acquireWaitCount.w",
   mr "locks.MMAPV1Journal.timeAcquiringMicros.r", mr "locks.MMAPV1Journal.timeAcquiringMicros.w",
   mr "locks.oplog.acquireCount.R", mr "locks.oplog.acquireCount.w",
   mr "locks.oplog.acquireWaitCount.R", mr "locks.oplog.acquireWaitCount.w",
   mr "locks.oplog.timeAcquiringMicros.R", mr "locks.oplog.timeAcquiringMicros.w"]

/-- `TCMALLOC_METRICS`: memory allocator report. -/
def TCMALLOC_METRICS : List (String × MetricDef) :=
  [mg "tcmalloc.generic.current_allocated_bytes", mg "tcmalloc.generic.heap_size",
   mg "tcmalloc.tcmalloc.aggressive_memory_decommit",
   mg "tcmalloc.tcmalloc.central_cache_free_bytes",
   mg "tcmalloc.tcmalloc.current_total_thread_cache_bytes",
   mg "tcmalloc.tcmalloc.max_total_thread_cache_bytes",
   mg "tcmalloc.tcmalloc.pageheap_free_bytes", mg "tcmalloc.tcmalloc.pageheap_unmapped_bytes",
   mg "tcmalloc.tcmalloc.thread_cache_free_bytes",
   mg "tcmalloc.tcmalloc.transfer_cache_free_bytes",
   mg "tcmalloc.tcmalloc.spinlock_total_delay_ns"]

/-- `WIREDTIGER_METRICS`: storage engine report. -/
def WIREDTIGER_METRICS : List (String × MetricDef) :=
  [mga "wiredTiger.cache.bytes currently in the cache" "wiredTiger.cache.bytes_currently_in_cache",
   mra "wiredTiger.cache.failed eviction of pages that exceeded the in-memory maximum"
     "wiredTiger.cache.failed_eviction_of_pages_exceeding_the_in-memory_maximum",
   mg "wiredTiger.cache.in-memory page splits",
   mg "wiredTiger.cache.maximum bytes configured",
   mg "wiredTiger.cache.maximum page size at eviction",
   mg "wiredTiger.cache.modified pages evicted",
   mg "wiredTiger.cache.pages read into cache",
   mg "wiredTiger.cache.pages written from cache",
   mga "wiredTiger.cache.pages currently held in the cache"
     "wiredTiger.cache.pages_currently_held_in_cache",
   mra "wiredTiger.cache.pages evicted because they exceeded the in-memory maximum"
     "wiredTiger.cache.pages_evicted_exceeding_the_in-memory_maximum",
   mr "wiredTiger.cache.pages evicted by application threads",
   mga "wiredTiger.cache.tracked dirty bytes in the cache"
     "wiredTiger.cache.tracked_dirty_bytes_in_cache",
   mg "wiredTiger.cache.unmodified pages evicted",
   mg "wiredTiger.concurrentTransactions.read.available",
   mg "wiredTiger.concurrentTransactions.read.out",
   mg "wiredTiger.concurrentTransactions.read.totalTickets",
   mg "wiredTiger.concurrentTransactions.write.available",
   mg "wiredTiger.concurrentTransactions.write.out",
   mg "wiredTiger.concurrentTransactions.write.totalTickets"]

/-- `TOP_METRICS`: usage statistics per namespace. -/
def TOP_METRICS : List (String × MetricDef) :=
  [mr "commands.count", mg "commands.time", mr "getmore.count", mg "getmore.time",
   mr "insert.count", mg "insert.time", mr "queries.count", mg "queries.time",
   mr "readLock.count", mg "readLock.time", mr "remove.count", mg "remove.time",
   mr "total.count", mg "total.time", mr "update.count", mg "update.time",
   mr "writeLock.count", mg "writeLock.time"]

/-- `COLLECTION_METRICS`: per-collection statistics. -/
def COLLECTION_METRICS : List (String × MetricDef) :=
  [mg "collection.size", mg "collection.avgObjSize", mg "collection.count",
   mg "collection.capped", mg "collection.max", mg "collection.maxSize",
   mg "collection.storageSize", mg "collection.nindexes", mg "collection.indexSizes"]

/-- `DEFAULT_METRICS`: category name to table, always merged. -/
def DEFAULT_METRICS : List (String × List (String × MetricDef)) :=
  [("base", BASE_METRICS), ("durability", DURABILITY_METRICS), ("locks", LOCKS_METRICS),
   ("wiredtiger", WIREDTIGER_METRICS)]

/-- `AVAILABLE_METRICS`: additional categories, opt-in by name. -/
def AVAILABLE_METRICS : List (String × List (String × MetricDef)) :=
  [("metrics.commands", COMMANDS_METRICS), ("tcmalloc", TCMALLOC_METRICS),
   ("top", TOP_METRICS), ("collection", COLLECTION_METRICS)]

/-- `REPLSET_MEMBER_STATES`: the 11 documented replica-set member states,
each with a short name and a long description. -/
def REPLSET_MEMBER_STATES : List (Int × String × String) :=
  [(0, ("STARTUP", "Starting Up")),
   (1, ("PRIMARY", "Primary")),
   (2, ("SECONDARY", "Secondary")),
   (3, ("RECOVERING", "Recovering")),
   (4, ("Fatal", "Fatal")),
   (5, ("STARTUP2", "Starting up (forking threads)")),
   (6, ("UNKNOWN", "Unknown to this replset member")),
   (7, ("ARBITER", "Arbiter")),
   (8, ("DOWN", "Down")),
   (9, ("ROLLBACK", "Rollback")),
   (10, ("REMOVED", "Removed"))]

/-- Lookup of a state code in `REPLSET_MEMBER_STATES`. -/
def lookupState : List (Int × String × String) → Int → Option (String × String)
  | [], _ => none
  | (k, v) :: rest, key => if k = key then some v else lookupState rest key

/-- `get_state_description`: the long description, or a fallback text
embedding the numeric code. -/
def get_state_description (state : Int) : String :=
  match lookupState REPLSET_MEMBER_STATES state with
  | some p => p.2
  | none => "Replset state " ++ toString state ++ " is unknown to the Datadog agent"

/-- `get_state_name`: the short name, or the literal `UNKNOWN`. -/
def get_state_name (state : Int) : String :=
  match lookupState REPLSET_MEMBER_STATES state with
  | some p => p.1
  | none => "UNKNOWN"

/-- Netloc extraction of `urlsplit` for URLs carrying a scheme: the text
after the first `://` up to the first `/`, `?` or `#`. The check always
passes a full connection string (`mongodb://...`). -/
def netlocOf (url : String) : String :=
  match afterFirstSub "://".data url.data with
  | some rem => ⟨rem.takeWhile (fun c => c ≠ '/' ∧ c ≠ '?' ∧ c ≠ '#')⟩
  | none => ""

/-- `hostname_for_event`: strip credentials and port from the sanitized
server URI, falling back to the locally configured agent hostname when
the extracted host is `localhost`. `netloc.split(sep)[i]` is the literal
Python indexing of the split result. -/
def hostname_for_event (agentHostname cleanServerName : String) : String :=
  let netloc := netlocOf cleanServerName
  let hostname :=
    if (pySplitC netloc '@').length ≥ 2 then
      (pySplitC ((pySplitC netloc '@').getD 1 "") ':').getD 0 ""
    else
      (pySplitC netloc ':').getD 0 ""
  if hostname = "localhost" then agentHostname else hostname

/-- An event as handed to the submission backend by `create_event`
(the wall-clock timestamp taken from `time.time()` is external state and
is not modelled). -/
structure MongoEvent where
  source_type_name : String
  msg_title : String
  msg_text : String
  host : String
  tags : List String
deriving DecidableEq, Repr

/-- `create_event`: build the replica-state-change event. -/
def create_event (agentHostname : String) (lastState state : Int)
    (cleanServerName replsetName : String) : MongoEvent :=
  let status := get_state_description state
  let shortStatus := get_state_name state
  let lastShortStatus := get_state_name lastState
  let hostname := hostname_for_event agentHostname cleanServerName
  { source_type_name := "mongodb"
    msg_title := hostname ++ " is " ++ shortStatus ++ " for " ++ replsetName
    msg_text := "MongoDB " ++ hostname ++ " (" ++ cleanServerName ++ ") just reported as " ++
      status ++ " (" ++ shortStatus ++ ") for " ++ replsetName ++ "; it was " ++
      lastShortStatus ++ " before."
    host := hostname
    tags := ["action:mongo_replset_member_status_change",
             "member_status:" ++ shortStatus,
             "previous_member_status:" ++ lastShortStatus,
             "replset:" ++ replsetName] }

/-- `_report_replica_set_state`: read the last recorded state for this
server (defaulting to the sentinel `-1`), record the new state, and
create an event exactly when the old state differs from the new one and
is not the sentinel. Returns the updated state map and the event, if
any. -/
def report_replica_set_state (lastStateByServer : List (String × Int))
    (agentHostname : String) (state : Int) (cleanServerName replsetName : String) :
    List (String × Int) × Option MongoEvent :=
  let lastState := (lookupKey lastStateByServer cleanServerName).getD (-1)
  let updated := setKey lastStateByServer cleanServerName state
  if lastState ≠ state ∧ lastState ≠ -1 then
    (updated, some (create_event agentHostname lastState state cleanServerName replsetName))
  else
    (updated, none)

/-- A metric handed to the submission backend: kind, final name, value
and tags. -/
structure Submission where
  kind : SubmitKind
  name : String
  value : BVal
  tags : List String

/-- `ALLOWED_CUSTOM_METRICS_TYPES`. -/
def ALLOWED_CUSTOM_METRICS_TYPES : List String :=
  ["gauge", "rate", "count", "monotonic_count"]

/-- `ALLOWED_CUSTOM_QUERIES_COMMANDS`. -/
def ALLOWED_CUSTOM_QUERIES_COMMANDS : List String := ["aggregate", "count", "find"]

/-- `_get_submission_method`: map the configured type string to a
submission kind, rejecting anything outside the allow-list. -/
def getSubmissionMethod (methodName : String) : Except PyError SubmitKind :=
  if methodName = "gauge" then .ok .gauge
  else if methodName = "rate" then .ok .rate
  else if methodName = "count" then .ok .count
  else if methodName = "monotonic_count" then .ok .monotonic_count
  else .error ⟨"ValueError", "Metric type " ++ methodName ++
    " is not one of [gauge, rate, count, monotonic_count]."⟩

/-- One entry of a custom query `fields` list as configured by the user;
every key is optional until validated. The source key `type` is spelt
`ftype` here. -/
structure FieldDecl where
  field_name : Option String
  name : Option String
  ftype : Option String

/-- A custom query descriptor (`raw_query`) as configured by the user.
The source keys `metric_prefix` and `tags` are spelt `metricPfx` and
`qtags` here. -/
structure RawQuery where
  metricPfx : Option String
  query : Option (List (String × BVal))
  count_type : Option String
  fields : Option (List FieldDecl)
  qtags : List String

/-- `_extract_command_from_mongo_query`: return the first allowed command
key present in the query document, in the fixed order aggregate, count,
find; raise `ValueError` when none is present. -/
def extractCommandFromMongoQuery (mongoQuery : List (String × BVal)) : Except PyError String :=
  match ALLOWED_CUSTOM_QUERIES_COMMANDS.find? (fun c => containsKey mongoQuery c) with
  | some c => .ok c
  | none => .error ⟨"ValueError",
      "Custom query command must be of type [aggregate, count, find]"⟩

/-- Python `s.rstrip(".")`: drop trailing dots. -/
def rstripDots (s : String) : String := ⟨(s.data.reverse.dropWhile (· = '.')).reverse⟩

/-- A validated custom query field: the declared document key, the metric
name suffix (or tag name), and the declared kind. -/
inductive VFieldKind where
  | tagField
  | metricField (k : SubmitKind)
deriving DecidableEq, Repr

/-- A `fields` entry after validation established all three keys. -/
structure VField where
  fieldName : String
  outName : String
  fkind : VFieldKind
deriving DecidableEq, Repr

/-- The field validation loop of `_collect_custom_metrics_for_query`:
`field_name`, `name` and `type` must each be present and truthy and the
type must be an allowed kind or `tag`. Returns the refined fields (the
source re-reads the same dicts during execution; validation guarantees
the keys exist). -/
def validateFields (metricPfxStr : String) : List FieldDecl → Except PyError (List VField)
  | [] => .ok []
  | f :: rest =>
    if ¬ truthyOptStr f.field_name then
      .error ⟨"ValueError", "Field `field_name` is required for metric_prefix `" ++
        metricPfxStr ++ "`"⟩
    else if ¬ truthyOptStr f.name then
      .error ⟨"ValueError", "Field `name` is required for metric_prefix `" ++
        metricPfxStr ++ "`"⟩
    else if ¬ truthyOptStr f.ftype then
      .error ⟨"ValueError", "Field `type` is required for metric_prefix `" ++
        metricPfxStr ++ "`"⟩
    else if ¬ ((f.ftype.getD "") ∈ ALLOWED_CUSTOM_METRICS_TYPES ∨ f.ftype.getD "" = "tag") then
      .error ⟨"ValueError", "Field `type` must be one of [gauge, rate, count, monotonic_count, tag]"⟩
    else
      match
        (if f.ftype.getD "" = "tag" then .ok .tagField
         else (getSubmissionMethod (f.ftype.getD "")).map .metricField : Except PyError VFieldKind)
      with
      | .error e => .error e
      | .ok k =>
        match validateFields metricPfxStr rest with
        | .error e => .error e
        | .ok vrest => .ok (⟨f.field_name.getD "", f.name.getD "", k⟩ :: vrest)

/-- The execution mode of a validated custom query. -/
inductive PreparedMode where
  | countMode (k : SubmitKind)
  | rowsMode (flds : List VField)

/-- A custom query descriptor after full validation, ready to execute. -/
structure Prepared where
  metricPfxStr : String
  command : String
  collection : BVal
  body : List (String × BVal)
  declaredTags : List String
  mode : PreparedMode

/-- The validation phase of `_collect_custom_metrics_for_query`, in
source order: `metric_prefix` truthy (then trailing dots stripped),
`query` truthy, command extracted (its value becomes the collection name
and the key is deleted from the body), the redundant allow-list re-check,
then `count_type` for count queries or the `fields` list otherwise. -/
def validateQuery (rawQuery : RawQuery) : Except PyError Prepared :=
  if ¬ truthyOptStr rawQuery.metricPfx then
    .error ⟨"ValueError", "Custom query field `metric_prefix` is required"⟩
  else
    let metricPfxStr := rstripDots (rawQuery.metricPfx.getD "")
    match rawQuery.query with
    | none => .error ⟨"ValueError", "Custom query field `query` is required"⟩
    | some mongoQuery =>
      if mongoQuery.isEmpty then
        .error ⟨"ValueError", "Custom query field `query` is required"⟩
      else
        match extractCommandFromMongoQuery mongoQuery with
        | .error e => .error e
        | .ok mongoCommand =>
          match lookupKey mongoQuery mongoCommand with
          | none => .error ⟨"KeyError", mongoCommand⟩
          | some collectionName =>
            let body := eraseKey mongoQuery mongoCommand
            if mongoCommand ∉ ALLOWED_CUSTOM_QUERIES_COMMANDS then
              .error ⟨"ValueError",
                "Custom query command must be of type [aggregate, count, find]"⟩
            else if mongoCommand = "count" then
              if ¬ truthyOptStr rawQuery.count_type then
                .error ⟨"ValueError",
                  "Custom query field `count_type` is required with a `count` query"⟩
              else
                match getSubmissionMethod (rawQuery.count_type.getD "") with
                | .error e => .error e
                | .ok k =>
                  .ok ⟨metricPfxStr, mongoCommand, collectionName, body, rawQuery.qtags,
                    .countMode k⟩
            else
              match rawQuery.fields with
              | none => .error ⟨"ValueError", "Custom query field `fields` is required"⟩
              | some flds =>
                if flds.isEmpty then
                  .error ⟨"ValueError", "Custom query field `fields` is required"⟩
                else
                  match validateFields metricPfxStr flds with
                  | .error e => .error e
                  | .ok vflds =>
                    .ok ⟨metricPfxStr, mongoCommand, collectionName, body, rawQuery.qtags,
                      .rowsMode vflds⟩

/-- The fold step of the per-row field scan: a field absent from the row
is skipped; a tag field appends `name:value` to the row tag set; a metric
field queues `(kind, metricPfxStr.name, value)` when the value coerces to
a number, and is skipped otherwise. -/
def rowFieldStep (metricPfxStr : String) (row : List (String × BVal))
    (acc : List String × List (SubmitKind × String × Int)) (f : VField) :
    List String × List (SubmitKind × String × Int) :=
  match lookupKey row f.fieldName with
  | none => acc
  | some v =>
    match f.fkind with
    | .tagField => (acc.1 ++ [f.outName ++ ":" ++ formatBVal v], acc.2)
    | .metricField k =>
      match pyFloat v with
      | some x => (acc.1, acc.2 ++ [(k, metricPfxStr ++ "." ++ f.outName, x)])
      | none => acc

/-- The tag-only projection of one field-scan step. -/
def tagPairStep (row : List (String × BVal)) (acc : List String) (f : VField) : List String :=
  match f.fkind, lookupKey row f.fieldName with
  | .tagField, some v => acc ++ [f.outName ++ ":" ++ formatBVal v]
  | _, _ => acc

/-- The row tag set produced by scanning the declared fields over one
row: one `name:value` tag per tag-typed field present in the row, in
declaration order (appended to the query base tags). -/
def rowTagPairs (flds : List VField) (row : List (String × BVal)) : List String :=
  flds.foldl (tagPairStep row) []

/-- Process one result row of a find/aggregate custom query: scan the
declared fields accumulating the row tag set and the queued metrics, then
submit every queued metric under the final row tag set. -/
def processRow (metricPfxStr : String) (flds : List VField) (tags : List String)
    (row : List (String × BVal)) : List Submission :=
  let acc := flds.foldl (rowFieldStep metricPfxStr row) (tags, [])
  acc.2.map (fun i => ⟨i.1, i.2.1, .num i.2.2, acc.1⟩)

/-- The document returned by `db.command` for a custom query, as supplied
by the external connector: the server `ok` flag and error message, the
`n` scalar of a count result, and the materialized cursor rows of a
find/aggregate result. -/
structure CommandResult where
  okFlag : Int
  errmsg : String
  n : Int
  rows : List (List (String × BVal))

/-- The execution phase of `_collect_custom_metrics_for_query`: extend
the base tags with the declared tags and the collection tag, fail with
the server message when the result reports `ok == 0`, submit the count
scalar directly for count queries, and otherwise process every row. -/
def runPrepared (p : Prepared) (tags0 : List String) (res : CommandResult) :
    Except PyError (List Submission) :=
  let tags := tags0 ++ p.declaredTags ++ ["collection:" ++ formatBVal p.collection]
  if res.okFlag = 0 then
    .error ⟨"PyMongoError", res.errmsg⟩
  else
    match p.mode with
    | .countMode k => .ok [⟨k, p.metricPfxStr, .num res.n, tags⟩]
    | .rowsMode flds => .ok ((res.rows.map (processRow p.metricPfxStr flds tags)).flatten)

/-- `_collect_custom_metrics_for_query`: validate the descriptor fully,
then execute (the command result standing in for the external
`db.command` call) and convert to submissions. -/
def collectCustomMetricsForQuery (rawQuery : RawQuery) (tags : List String)
    (res : CommandResult) : Except PyError (List Submission) :=
  match validateQuery rawQuery with
  | .error e => .error e
  | .ok p => runPrepared p tags res

/-- Log lines observable from the plan builder and the orchestrator. -/
inductive LogEntry where
  /-- Deprecation notice for requesting a category already collected by
  default. -/
  | deprecatedOption (opt : String)
  /-- Warning for an unrecognized additional category name. -/
  | unrecognizedOption (opt : String)
  /-- Debug notice that a known additional category was merged. -/
  | addedOption (opt : String)
  /-- Error logged per collection when index statistics fail. -/
  | indexStatsFailed (collName : String)
  /-- Warning logged when the `top` command or its processing fails. -/
  | topFailed
  /-- Warning logged when per-collection statistics fail. -/
  | collectionFailed
  /-- Warning logged when one custom query fails, carrying its raw
  `metric_prefix`. -/
  | customQueryFailed (pfx : Option String)
deriving DecidableEq, Repr

/-- One iteration of the additional-metrics loop of
`_build_metric_list_to_collect`: a requested name with no (non-empty)
entry in the additional tables is skipped, with a deprecation notice when
it names a default category and a warning otherwise; a known additional
table is merged over the accumulated plan. -/
def buildOption (acc : List (String × MetricDef) × List LogEntry) (opt : String) :
    List (String × MetricDef) × List LogEntry :=
  match lookupKey AVAILABLE_METRICS opt with
  | some tbl =>
    if tbl.isEmpty then
      if containsKey DEFAULT_METRICS opt then
        (acc.1, acc.2 ++ [.deprecatedOption opt])
      else
        (acc.1, acc.2 ++ [.unrecognizedOption opt])
    else
      (dictUpdate acc.1 tbl, acc.2 ++ [.addedOption opt])
  | none =>
    if containsKey DEFAULT_METRICS opt then
      (acc.1, acc.2 ++ [.deprecatedOption opt])
    else
      (acc.1, acc.2 ++ [.unrecognizedOption opt])

/-- `_build_metric_list_to_collect`: merge every default category, then
process each requested additional name in the requested order. Returns
the merged table and the log lines. -/
def buildMetricListToCollect (additionalMetrics : List String) :
    List (String × MetricDef) × List LogEntry :=
  let defaults := DEFAULT_METRICS.foldl (fun acc p => dictUpdate acc p.2) []
  additionalMetrics.foldl buildOption (defaults, [])

/-- The main metric loop of `check` over one entry: paths rooted at
`stats` are skipped here (they are collected against the per-database
statistics documents), then the walk and numeric check of
`processStatusMetric` apply, and a found numeric value is resolved and
submitted. Returns the submissions and the first fatal error. -/
def mainLoopAux (full : List (String × MetricDef)) (status : BVal) (tags : List String) :
    List (String × MetricDef) → List Submission × Option PyError
  | [] => ([], none)
  | (path, _) :: rest =>
    if strStartsWith path "stats" then mainLoopAux full status tags rest
    else
      match processStatusMetric status path with
      | .skip => mainLoopAux full status tags rest
      | .submit n =>
        match resolveMetric full path "" with
        | .ok (k, nm) =>
          let r := mainLoopAux full status tags rest
          (⟨k, nm, .num n, tags⟩ :: r.1, r.2)
        | .error e => ([], some e)
      | other => ([], processErrOf path status other)

/-- The main metric loop of `check` (lines 995-1019). -/
def mainLoop (metricsToCollect : List (String × MetricDef)) (status : BVal)
    (tags : List String) : List Submission × Option PyError :=
  mainLoopAux metricsToCollect status tags metricsToCollect

/-- The per-database statistics loop of `check` (lines 1021-1046): for
every database and every `stats.`-rooted path, look the second path
segment up in that database statistics document, skip on `KeyError`,
fail on a non-numeric value, and submit with the two database tags. -/
def statsLoopAux (full : List (String × MetricDef)) (dbName : String) (statsDoc : BVal)
    (tags : List String) : List (String × MetricDef) → List Submission × Option PyError
  | [] => ([], none)
  | (path, _) :: rest =>
    if ¬ strStartsWith path "stats." then statsLoopAux full dbName statsDoc tags rest
    else
      match getItemB statsDoc ((pySplitC path '.').getD 1 "") with
      | .error _ => statsLoopAux full dbName statsDoc tags rest
      | .ok v =>
        match v with
        | .num n =>
          match resolveMetric full path "" with
          | .ok (k, nm) =>
            let r := statsLoopAux full dbName statsDoc tags rest
            (⟨k, nm, .num n, tags ++ ["cluster:db:" ++ dbName, "db:" ++ dbName]⟩ :: r.1, r.2)
          | .error e => ([], some e)
        | _ => ([], some ⟨"TypeError", path ++ " value is a " ++ pyTypeName v ++
            ", it should be an int, a float or a long instead."⟩)

/-- The statistics loop over every database document. -/
def statsLoop (metricsToCollect : List (String × MetricDef))
    (dbstats : List (String × BVal)) (tags : List String) :
    List Submission × Option PyError :=
  dbstats.foldl
    (fun acc p =>
      match acc.2 with
      | some _ => acc
      | none =>
        let r := statsLoopAux metricsToCollect p.1 p.2 tags metricsToCollect
        (acc.1 ++ r.1, r.2))
    ([], none)

/-- Outcome of an external fetch: a value, or a raised exception. -/
inductive Fetch (α : Type) where
  | ok (a : α)
  | err (e : PyError)

/-- One row of the `$indexStats` aggregation: read the index name with an
`unknown` default and coerce `accesses.ops` (defaulting to `0`) through
`int(...)`. -/
def indexStatRow (collName : String) (tags : List String) (row : List (String × BVal)) :
    Except PyError Submission :=
  let idxTags := tags ++ ["name:" ++ ((lookupKey row "name").map formatBVal).getD "unknown",
                          "collection:" ++ collName]
  let opsVal : Except PyError Int :=
    match lookupKey row "accesses" with
    | none => .ok 0
    | some (.doc a) =>
      match lookupKey a "ops" with
      | none => .ok 0
      | some v => pyInt v
    | some _ => .error ⟨"AttributeError", "object has no attribute get"⟩
  match opsVal with
  | .error e => .error e
  | .ok n => .ok ⟨.gauge, "mongodb.collection.indexes.accesses.ops", .num n, idxTags⟩

/-- The rows of one collection, submitting until a row fails. -/
def indexStatRows (collName : String) (tags : List String) :
    List (List (String × BVal)) → List Submission × Option PyError
  | [] => ([], none)
  | row :: rest =>
    match indexStatRow collName tags row with
    | .error e => ([], some e)
    | .ok s =>
      let r := indexStatRows collName tags rest
      (s :: r.1, r.2)

/-- `_collect_indexes_stats`: each configured collection is processed
under its own exception handler, so a failure (fetching or in a row) is
logged and the remaining collections still run. -/
def collectIndexesStats :
    List (String × Fetch (List (List (String × BVal)))) → List String →
    List Submission × List LogEntry
  | [], _ => ([], [])
  | (collName, fetch) :: rest, tags =>
    let head : List Submission × List LogEntry :=
      match fetch with
      | .err _ => ([], [.indexStatsFailed collName])
      | .ok rows =>
        let r := indexStatRows collName tags rows
        match r.2 with
        | some _ => (r.1, [.indexStatsFailed collName])
        | none => (r.1, [])
    let more := collectIndexesStats rest tags
    (head.1 ++ more.1, head.2 ++ more.2)

/-- One `TOP_METRICS` entry against one namespace document in the `top`
block: the walk is wrapped in a catch-all (`except Exception: continue`),
a non-numeric found value raises, and a submitted metric whose resolved
name ends in `countps` is submitted a second time as a gauge under the
name with the trailing `ps` stripped. -/
def topMetricBlock (metricsToCollect : List (String × MetricDef)) (nsMetrics : BVal)
    (nsTags : List String) (m : String) : Except PyError (List Submission) :=
  match walkPath nsMetrics (pySplitC m '.') with
  | .error _ => .ok []
  | .ok v =>
    match v with
    | .num n =>
      match resolveMetric metricsToCollect m "usage" with
      | .error e => .error e
      | .ok (k, nm) =>
        .ok ([⟨k, nm, .num n, nsTags⟩] ++
          (if strEndsWith nm "countps" then
            [⟨.gauge, strDropRight2 nm, .num n, nsTags⟩]
          else []))
    | _ => .error ⟨"TypeError", m ++ " value is a " ++ pyTypeName v ++
        ", it should be an int, a float or a long instead."⟩

/-- All `TOP_METRICS` entries against one namespace document; submissions
made before a raising entry are kept (they were already sent), and the
raise propagates to the surrounding handler of the `top` block. -/
def topProcessNs (metricsToCollect : List (String × MetricDef)) (nsMetrics : BVal)
    (nsTags : List String) : List (String × MetricDef) → List Submission × Option PyError
  | [] => ([], none)
  | (m, _) :: rest =>
    match topMetricBlock metricsToCollect nsMetrics nsTags m with
    | .error e => ([], some e)
    | .ok subs =>
      let r := topProcessNs metricsToCollect nsMetrics nsTags rest
      (subs ++ r.1, r.2)

/-- The namespace loop of the `top` block: namespaces without a dot are
skipped; the database and collection tags come from splitting the
namespace on the first dot. -/
def topNamespaces (metricsToCollect : List (String × MetricDef)) (tags : List String) :
    List (String × BVal) → List Submission × Option PyError
  | [] => ([], none)
  | (ns, nsMetrics) :: rest =>
    if ¬ (pySplitC ns '.').length ≥ 2 then topNamespaces metricsToCollect tags rest
    else
      let dbname := (pySplitC ns '.').getD 0 ""
      let collname := String.intercalate "." ((pySplitC ns '.').drop 1)
      let nsTags := tags ++ ["db:" ++ dbname, "collection:" ++ collname]
      let r := topProcessNs metricsToCollect nsMetrics nsTags TOP_METRICS
      match r.2 with
      | some e => (r.1, some e)
      | none =>
        let more := topNamespaces metricsToCollect tags rest
        (r.1 ++ more.1, more.2)

/-- The `top` feature (lines 1056-1093): enabled by the `top` additional
metric option; the command fetch and all namespace processing run under
one catch-all handler that logs a warning, so any failure leaves the rest
of the cycle intact (submissions already made are kept). -/
def topPhase (topEnabled : Bool) (totals : Fetch (List (String × BVal)))
    (metricsToCollect : List (String × MetricDef)) (tags : List String) :
    List Submission × List LogEntry :=
  if ¬ topEnabled then ([], [])
  else
    match totals with
    | .err _ => ([], [.topFailed])
    | .ok t =>
      let r := topNamespaces metricsToCollect tags t
      (r.1, if r.2.isSome then [.topFailed] else [])

/-- `Replset state` information needed from the admin `replSetGetStatus`
command and the replica configuration: the set name, this member state
code, and the other computed entries of the `replSet` status sub-document
(health, lag, votes; they are read from the external connector and
carried opaquely). -/
structure ReplInfo where
  setName : String
  myState : Int
  extra : List (String × BVal)

/-- The filter of the replica block handler: only an `OperationFailure`
whose message mentions `not running with --replSet` or `replSetGetStatus`
is swallowed (with a bare `pass`); anything else is re-raised. -/
def isSwallowedReplErr (e : PyError) : Bool :=
  containsSubstr (pyRepr e) "OperationFailure" ∧
    (containsSubstr e.msg "not running with --replSet" ∨
     containsSubstr e.msg "replSetGetStatus")

/-- Set a key of a document value (`status[k] = v`; the status document
returned by the server is always a mapping). -/
def setDocKey : BVal → String → BVal → BVal
  | .doc fs, k, v => .doc (setKey fs k v)
  | other, _, _ => other

/-- `status['ok'] == 0` (the flag is always present in a server status
document). -/
def statusOkZero (status : BVal) : Bool :=
  match getItemB status "ok" with
  | .ok (.num n) => n == 0
  | _ => false

/-- `str(status['errmsg'])` for the failed-status raise. -/
def statusErrmsg (status : BVal) : String :=
  match getItemB status "errmsg" with
  | .ok v => formatBVal v
  | .error _ => ""

/-- `collection_metrics_names`: the second path segment of every
`COLLECTION_METRICS` key, computed once in the constructor. -/
def collectionMetricsNames : List String :=
  COLLECTION_METRICS.map (fun p => (pySplitC p.1 '.').getD 1 "")

/-- The metric loop over one collection statistics document (lines
1145-1169): falsy values are skipped; `indexSizes` is a mapping submitted
per index with an extra index tag (a non-mapping raises); other values
are submitted raw, without a numeric check. Submissions made before a
raise are kept. -/
def collStatsOneAux (dbName collName : String) (tags : List String)
    (stats : List (String × BVal)) : List String → List Submission × Option PyError
  | [] => ([], none)
  | m :: rest =>
    let collTags := tags ++ ["db:" ++ dbName, "collection:" ++ collName]
    match lookupKey stats m with
    | none => collStatsOneAux dbName collName tags stats rest
    | some value =>
      if ¬ pyTruthy value then collStatsOneAux dbName collName tags stats rest
      else if m = "indexSizes" then
        match resolveMetric COLLECTION_METRICS ("collection." ++ m) "" with
        | .error e => ([], some e)
        | .ok (k, nm) =>
          match value with
          | .doc items =>
            let subs := items.map (fun p => (⟨k, nm, p.2, collTags ++ ["index:" ++ p.1]⟩ : Submission))
            let r := collStatsOneAux dbName collName tags stats rest
            (subs ++ r.1, r.2)
          | _ => ([], some ⟨"AttributeError", "object has no attribute items"⟩)
      else
        match resolveMetric COLLECTION_METRICS ("collection." ++ m) "" with
        | .error e => ([], some e)
        | .ok (k, nm) =>
          let r := collStatsOneAux dbName collName tags stats rest
          (⟨k, nm, value, collTags⟩ :: r.1, r.2)

/-- The per-collection statistics feature (lines 1139-1172): every
configured collection is fetched and processed under one catch-all
handler; the first failure stops the remaining collections but is logged
as a warning, leaving the rest of the cycle intact. -/
def collStatsPhase (dbName : String) (tags : List String) :
    List (String × Fetch (List (String × BVal))) → List Submission × List LogEntry
  | [] => ([], [])
  | (collName, fetch) :: rest =>
    match fetch with
    | .err _ => ([], [.collectionFailed])
    | .ok stats =>
      let r := collStatsOneAux dbName collName tags stats collectionMetricsNames
      match r.2 with
      | some _ => (r.1, [.collectionFailed])
      | none =>
        let more := collStatsPhase dbName tags rest
        (r.1 ++ more.1, more.2)

/-- The `ReplicationInfo` submissions (lines 1131-1133): each assembled
oplog datum is resolved against the plan and submitted. The assembly of
`oplog_data` itself (options, collection sizes, first/last timestamps) is
connector interaction and is carried as an input. -/
def oplogPhase (oplogData : List (String × BVal)) (metricsToCollect : List (String × MetricDef))
    (tags : List String) : List Submission × Option PyError :=
  oplogData.foldl
    (fun acc p =>
      match acc.2 with
      | some _ => acc
      | none =>
        match resolveMetric metricsToCollect ("oplog." ++ p.1) "" with
        | .error e => (acc.1, some e)
        | .ok (k, nm) => (acc.1 ++ [⟨k, nm, p.2, tags⟩], none))
    ([], none)

/-- One custom query under the per-query handler of `check` (lines
1176-1181): a failure of any kind is logged with the raw query
`metric_prefix` and the remaining queries still run. -/
def customQueryStep (ctags : List String) (p : RawQuery × CommandResult) :
    List Submission × List LogEntry :=
  match collectCustomMetricsForQuery p.1 ctags p.2 with
  | .error _ => ([], [.customQueryFailed p.1.metricPfx])
  | .ok subs => (subs, [])

/-- The custom query feature: each configured query runs independently. -/
def customPhase (qs : List (RawQuery × CommandResult)) (ctags : List String) :
    List Submission × List LogEntry :=
  (((qs.map (customQueryStep ctags)).map Prod.fst).flatten,
   ((qs.map (customQueryStep ctags)).map Prod.snd).flatten)

/-- One check cycle's inputs: configuration plus the documents and
outcomes supplied by the external connector, in the order the orchestrator
consumes them. -/
structure CheckInput where
  /-- The locally configured agent hostname. -/
  agentHostname : String
  /-- Sanitized connection string (state key and event target). -/
  cleanServerName : String
  /-- Configured database name (after the `admin` default). -/
  dbName : String
  /-- Instance tags, already extended with the `server` tag. -/
  tags : List String
  /-- The `additional_metrics` option. -/
  additionalMetrics : List String
  /-- Last replica states per server, shared across cycles. -/
  lastStateByServer : List (String × Int)
  /-- The `serverStatus` command outcome. -/
  serverStatus : Fetch BVal
  /-- Whether `current_op` reports an fsync lock. -/
  fsyncLock : Bool
  /-- The `replica_check` option. -/
  replicaCheck : Bool
  /-- Outcome of the whole replica block interaction (`replSetGetStatus`
  plus the replica configuration reads). -/
  replSetFetch : Fetch ReplInfo
  /-- `database_names()`. -/
  dbNames : List String
  /-- Per-database `dbstats` statistics documents. -/
  dbstats : List (String × BVal)
  /-- The `collections_indexes_stats` option (version gate passed). -/
  collectionsIndexesStats : Bool
  /-- Per-collection `$indexStats` aggregation outcomes. -/
  indexStatsFetch : List (String × Fetch (List (List (String × BVal))))
  /-- The `top` command outcome (its `totals` mapping). -/
  topTotals : Fetch (List (String × BVal))
  /-- The assembled `oplog_data` from the `local` database. -/
  oplogData : List (String × BVal)
  /-- Per configured collection, the `collstats` command outcome. -/
  collStatsFetch : List (String × Fetch (List (String × BVal)))
  /-- Configured custom queries, each with its command result. -/
  customQueries : List (RawQuery × CommandResult)

/-- One check cycle's observable outputs: the connectivity service check,
events, the updated replica-state map, submissions per phase, log lines
and the exception aborting the cycle, if any. Phases after the abort
point produce nothing. -/
structure CheckOutput where
  serviceCheckOk : Option Bool
  events : List MongoEvent
  lastStateByServer : List (String × Int)
  planLogs : List LogEntry
  dbsGauge : Option Submission
  mainMetrics : List Submission
  statsMetrics : List Submission
  indexMetrics : List Submission
  topMetrics : List Submission
  oplogMetrics : List Submission
  collMetrics : List Submission
  customMetrics : List Submission
  logs : List LogEntry
  fatal : Option PyError

/-- The part of a cycle that precedes the four independently guarded
optional features (index statistics, `top`, per-collection statistics,
custom queries): connectivity, the replica block, the main and
per-database metric loops, and the replication-info submissions. None of
it reads the feature inputs. -/
structure CheckPre where
  serviceCheckOk : Option Bool
  events : List MongoEvent
  lastStateByServer : List (String × Int)
  planLogs : List LogEntry
  plan : List (String × MetricDef)
  tags1 : List String
  dbsGauge : Option Submission
  mainMetrics : List Submission
  statsMetrics : List Submission
  oplogMetrics : List Submission
  /-- The exception aborting the cycle before any feature ran, if any. -/
  fatalPre : Option PyError
  /-- The exception of the replication-info resolution, aborting the
  cycle after index statistics and `top` but before per-collection
  statistics and custom queries, if any. -/
  oplogFatal : Option PyError

/-- The replica block (lines 900-975): on success extend the tags with
the set name and state, store the `replSet` sub-document into the status
document, and feed the member state to the tracker; a raised error is
swallowed only when `isSwallowedReplErr` holds, and otherwise aborts the
cycle. Returns the updated status document, tags, state map and events. -/
def replicaPhase (inp : CheckInput) (status1 : BVal) :
    Except PyError (BVal × List String × List (String × Int) × List MongoEvent) :=
  if ¬ inp.replicaCheck then .ok (status1, inp.tags, inp.lastStateByServer, [])
  else
    match inp.replSetFetch with
    | .err e =>
      if isSwallowedReplErr e then .ok (status1, inp.tags, inp.lastStateByServer, [])
      else .error e
    | .ok info =>
      let tags1 := inp.tags ++ ["replset_name:" ++ info.setName,
        "replset_state:" ++ strToLower (get_state_name info.myState)]
      let data := setKey info.extra "state" (.num info.myState)
      let status2 := setDocKey status1 "replSet" (.doc data)
      let rep := report_replica_set_state inp.lastStateByServer inp.agentHostname
        info.myState inp.cleanServerName info.setName
      .ok (status2, tags1, rep.1, rep.2.toList)

/-- The feature-independent part of `check`: build the plan, fetch the
status document (a failure is a CRITICAL service check and aborts), check
the server `ok` flag, run the replica block (a non-swallowed failure
aborts), the `mongodb.dbs` gauge, the main metric loop and the
per-database statistics loop (a type mismatch aborts), and assemble the
replication-info submissions. -/
def runCheckPre (inp : CheckInput) : CheckPre :=
  let planPair := buildMetricListToCollect inp.additionalMetrics
  let plan := planPair.1
  match inp.serverStatus with
  | .err e =>
    ⟨some false, [], inp.lastStateByServer, planPair.2, plan, inp.tags, none, [], [], [],
     some e, none⟩
  | .ok status0 =>
    if statusOkZero status0 then
      ⟨some true, [], inp.lastStateByServer, planPair.2, plan, inp.tags, none, [], [], [],
       some ⟨"Exception", statusErrmsg status0⟩, none⟩
    else
      let status1 := setDocKey status0 "fsyncLocked" (.num (if inp.fsyncLock then 1 else 0))
      match replicaPhase inp status1 with
      | .error e =>
        ⟨some true, [], inp.lastStateByServer, planPair.2, plan, inp.tags, none, [], [], [],
         some e, none⟩
      | .ok (status2, tags1, lastMap2, evs) =>
        let dbs : Option Submission :=
          some ⟨.gauge, "mongodb.dbs", .num (inp.dbNames.length : Int), tags1⟩
        let main := mainLoop plan status2 tags1
        match main.2 with
        | some e =>
          ⟨some true, evs, lastMap2, planPair.2, plan, tags1, dbs, main.1, [], [],
           some e, none⟩
        | none =>
          let stats := statsLoop plan inp.dbstats tags1
          match stats.2 with
          | some e =>
            ⟨some true, evs, lastMap2, planPair.2, plan, tags1, dbs, main.1, stats.1, [],
             some e, none⟩
          | none =>
            let opl := if "local" ∈ inp.dbNames then oplogPhase inp.oplogData plan tags1
              else ([], none)
            ⟨some true, evs, lastMap2, planPair.2, plan, tags1, dbs, main.1, stats.1,
             opl.1, none, opl.2⟩

/-- The check orchestrator (`check`, after connection and
authentication): the feature-independent prefix, then — when it did not
abort — the isolated features in source order: index statistics, `top`
usage statistics (both run even when the later replication-info
resolution aborts, since they precede it), per-collection statistics and
custom queries. -/
def runCheck (inp : CheckInput) : CheckOutput :=
  let pre := runCheckPre inp
  match pre.fatalPre with
  | some e =>
    ⟨pre.serviceCheckOk, pre.events, pre.lastStateByServer, pre.planLogs, pre.dbsGauge,
     pre.mainMetrics, pre.statsMetrics, [], [], [], [], [], [], some e⟩
  | none =>
    let idx := if inp.collectionsIndexesStats then
        collectIndexesStats inp.indexStatsFetch pre.tags1
      else ([], [])
    let top := topPhase ("top" ∈ inp.additionalMetrics) inp.topTotals pre.plan pre.tags1
    match pre.oplogFatal with
    | some e =>
      ⟨pre.serviceCheckOk, pre.events, pre.lastStateByServer, pre.planLogs, pre.dbsGauge,
       pre.mainMetrics, pre.statsMetrics, idx.1, top.1, pre.oplogMetrics, [], [],
       idx.2 ++ top.2, some e⟩
    | none =>
      let coll := collStatsPhase inp.dbName pre.tags1 inp.collStatsFetch
      let custom := customPhase inp.customQueries (pre.tags1 ++ ["db:" ++ inp.dbName])
      ⟨pre.serviceCheckOk, pre.events, pre.lastStateByServer, pre.planLogs, pre.dbsGauge,
       pre.mainMetrics, pre.statsMetrics, idx.1, top.1, pre.oplogMetrics, coll.1, custom.1,
       idx.2 ++ top.2 ++ coll.2 ++ custom.2, none⟩

/-! Concrete example inputs used by the claim theorems below. -/

/-- The spec example document `(a: (b: 5))`. -/
def exDocNum : BVal := .doc [("a", .doc [("b", .num 5)])]

/-- The spec example document `(a: (b: "x"))`. -/
def exDocStr : BVal := .doc [("a", .doc [("b", .str "x")])]

/-- A custom query whose document contains two recognized command keys. -/
def c3rq : RawQuery :=
  { metricPfx := some "custq", query := some [("count", .str "c1"), ("find", .str "c2")],
    count_type := some "gauge", fields := none, qtags := [] }

/-- A custom count query whose `metric_prefix` consists only of dots. -/
def c4rq : RawQuery :=
  { metricPfx := some "...", query := some [("count", .str "c1")],
    count_type := some "rate", fields := none, qtags := [] }

/-- A successful count command result with `n = 42`. -/
def c4res : CommandResult := ⟨1, "", 42, []⟩

/-- A find query declaring one gauge field and one tag field. -/
def c8rq : RawQuery :=
  { metricPfx := some "custq", query := some [("find", .str "stuff")],
    count_type := none,
    fields := some [⟨some "v", some "val", some "gauge"⟩, ⟨some "tg", some "tagn", some "tag"⟩],
    qtags := [] }

/-- A find result with two rows, the second missing the declared field. -/
def c8res : CommandResult :=
  ⟨1, "", 0, [[("v", .num 1), ("tg", .str "x")], [("w", .num 2)]]⟩

/-- A generic error inside the replica block, not of the swallowed
`OperationFailure` shape. -/
def c5err : PyError := ⟨"ValueError", "boom"⟩

/-- A small healthy status document. -/
def c5status : BVal := .doc [("ok", .num 1), ("uptime", .num 3)]

/-- A well-formed custom count query. -/
def c5rq : RawQuery :=
  { metricPfx := some "custq", query := some [("count", .str "c1")],
    count_type := some "gauge", fields := none, qtags := [] }

/-- A custom query missing its `metric_prefix`. -/
def c5badrq : RawQuery :=
  { metricPfx := none, query := none, count_type := none, fields := none, qtags := [] }

/-- A cycle whose replica block raises a generic error while a custom
query is configured that would succeed. -/
def c5inpErr : CheckInput :=
  { agentHostname := "agent", cleanServerName := "mongodb://db1/", dbName := "admin",
    tags := [], additionalMetrics := [], lastStateByServer := [],
    serverStatus := .ok c5status, fsyncLock := false, replicaCheck := true,
    replSetFetch := .err c5err, dbNames := [], dbstats := [],
    collectionsIndexesStats := false, indexStatsFetch := [], topTotals := .ok [],
    oplogData := [], collStatsFetch := [], customQueries := [(c5rq, ⟨1, "", 7, []⟩)] }

/-!
## Theorems

Shared lemmas first, then one theorem (plus witness or counterexample)
per claim.
-/

/-- Splitting an extraction walk at any point: the walk over a
concatenated path runs the first part and continues from its result. -/
theorem walkPath_append (v : BVal) (xs ys : List String) :
    walkPath v (xs ++ ys) =
      match walkPath v xs with
      | .ok w => walkPath w ys
      | .error e => .error e := by
  induction xs generalizing v with
  | nil => simp [walkPath]
  | cons k rest ih =>
    simp only [List.cons_append, walkPath]
    cases getItemB v k with
    | ok w => exact ih w
    | error e => rfl

/-- C1 counterexample: over the document `(a: (b: 5))` the path `a.b.c`
descends into the scalar `5`; the claim says this yields Absent and the
metric is silently skipped, but the code catches only `KeyError` and the
`TypeError` raised by subscripting a non-mapping escapes, fatally. -/
theorem c1_counterexample :
    processStatusMetric exDocNum "a.b.c" = .errorNotSubscriptable ∧
    processStatusMetric exDocNum "a.b.c" ≠ .skip := by
  refine ⟨rfl, ?_⟩
  decide

/-- C1 (amended): a `KeyError` at any depth of the walk (in particular a
missing key under any reachable sub-mapping) silently skips the metric; a
value that is present but not numeric raises the fatal TypeMismatch
error; but a path descending into a non-mapping scalar raises an uncaught
`TypeError` — also fatal — rather than yielding Absent. The spec examples
behave accordingly. -/
theorem c1_extractor :
    (∀ (status : BVal) (path : String),
      (walkPath status (pySplitC path '.') = .error .keyError →
        processStatusMetric status path = .skip) ∧
      (walkPath status (pySplitC path '.') = .error .typeError →
        processStatusMetric status path = .errorNotSubscriptable) ∧
      (∀ n, walkPath status (pySplitC path '.') = .ok (.num n) →
        processStatusMetric status path = .submit n) ∧
      (∀ v, walkPath status (pySplitC path '.') = .ok v → (∀ n, v ≠ .num n) →
        processStatusMetric status path = .errorTypeMismatch)) ∧
    (∀ (status : BVal) (segs : List String) (k : String) (rest : List String)
        (fs : List (String × BVal)),
      walkPath status segs = .ok (.doc fs) → lookupKey fs k = none →
      walkPath status (segs ++ k :: rest) = .error .keyError) ∧
    processStatusMetric exDocNum "a.b" = .submit 5 ∧
    processStatusMetric exDocNum "a.c" = .skip ∧
    processStatusMetric exDocStr "a.b" = .errorTypeMismatch := by
  refine ⟨?_, ?_, rfl, rfl, rfl⟩
  · intro status path
    refine ⟨?_, ?_, ?_, ?_⟩ <;> simp only [processStatusMetric]
    · intro h; rw [h]
    · intro h; rw [h]
    · intro n h; rw [h]
    · intro v h hv
      rw [h]
      cases v with
      | num n => exact absurd rfl (hv n)
      | str s => rfl
      | doc fs => rfl
      | arr xs => rfl
  · intro status segs k rest fs h hk
    rw [walkPath_append, h]
    simp [walkPath, getItemB, hk]

/-- C1 witness: the amended theorem applied at the spec example. -/
theorem c1_extractor_witness :
    processStatusMetric exDocNum "a.c" = .skip ∧
    walkPath exDocNum (["a"] ++ "x" :: []) = .error .keyError :=
  ⟨(c1_extractor.1 exDocNum "a.c").1 rfl,
   c1_extractor.2.1 exDocNum ["a"] "x" [] [("b", .num 5)] rfl rfl⟩

/-- C2 counterexample: a first observation of state `-1` (an integer code
outside the 11 known states, which the claim says is still stored and
comparable) stores it; a later differing observation then emits no event,
because the stored `-1` collides with the no-prior sentinel — against the
claim that a differing prior recorded state always emits exactly one
event. -/
theorem c2_counterexample :
    report_replica_set_state [] "agent" (-1) "srv" "rs" = ([("srv", -1)], none) ∧
    lookupKey [("srv", (-1 : Int))] "srv" = some (-1) ∧
    ((-1 : Int) ≠ 1) ∧
    (report_replica_set_state [("srv", -1)] "agent" 1 "srv" "rs").2 = none := by
  refine ⟨by decide, rfl, by decide, by decide⟩

/-- C2 (amended): the first observation for an identity stores the state
and emits nothing; an observation equal to the prior stores it and emits
nothing; an observation differing from a prior state other than `-1`
stores it and emits exactly one event whose tags carry the old and new
short state names; a recorded prior of `-1` is indistinguishable from the
no-prior sentinel and emits nothing. -/
theorem c2_tracker :
    ∀ (m : List (String × Int)) (h : String) (st : Int) (srv rs : String),
      (lookupKey m srv = none →
        report_replica_set_state m h st srv rs = (setKey m srv st, none)) ∧
      (lookupKey m srv = some st →
        report_replica_set_state m h st srv rs = (setKey m srv st, none)) ∧
      (∀ prior, lookupKey m srv = some prior → prior ≠ st → prior ≠ -1 →
        report_replica_set_state m h st srv rs =
          (setKey m srv st, some (create_event h prior st srv rs)) ∧
        ("member_status:" ++ get_state_name st) ∈ (create_event h prior st srv rs).tags ∧
        ("previous_member_status:" ++ get_state_name prior) ∈
          (create_event h prior st srv rs).tags) ∧
      (lookupKey m srv = some (-1) →
        (report_replica_set_state m h st srv rs).2 = none) := by
  intro m h st srv rs
  refine ⟨?_, ?_, ?_, ?_⟩
  · intro hm
    simp [report_replica_set_state, hm]
  · intro hm
    simp [report_replica_set_state, hm]
  · intro prior hm hne hsent
    refine ⟨?_, ?_, ?_⟩
    · simp [report_replica_set_state, hm, hne, hsent]
    · simp [create_event]
    · simp [create_event]
  · intro hm
    by_cases hst : st = -1
    · subst hst
      simp [report_replica_set_state, hm]
    · simp [report_replica_set_state, hm, hst]

/-- C2 witness: a transition from state 2 to state 1 stores the new state
and emits the transition event. -/
theorem c2_tracker_witness :
    report_replica_set_state [("srv", 2)] "agent" 1 "srv" "rs" =
      ([("srv", 1)], some (create_event "agent" 2 1 "srv" "rs")) :=
  ((c2_tracker [("srv", 2)] "agent" 1 "srv" "rs").2.2.1 2 rfl (by decide) (by decide)).1

/-- C10 counterexample: for an unrecognized state code the event state
tags and title indeed agree with those of state 6, but the event body
embeds the state description, so transition events do distinguish an
unrecognized code from state 6 — against the claim that they cannot. -/
theorem c10_counterexample :
    (create_event "agent" 1 42 "mongodb://x/" "rs").tags =
      (create_event "agent" 1 6 "mongodb://x/" "rs").tags ∧
    (create_event "agent" 1 42 "mongodb://x/" "rs").msg_title =
      (create_event "agent" 1 6 "mongodb://x/" "rs").msg_title ∧
    (create_event "agent" 1 42 "mongodb://x/" "rs").msg_text ≠
      (create_event "agent" 1 6 "mongodb://x/" "rs").msg_text := by
  refine ⟨by decide, by decide, by decide⟩

/-- C10 (amended): every integer state code outside the 11 known states
maps to the short name `UNKNOWN`, identical to the short name of state 6,
so the event state tags and the event title cannot distinguish such a
code from state 6; `get_state_description` does distinguish them by
embedding the numeric code in its fallback text (and through it so does
the event body). -/
theorem c10_unknown_state :
    ∀ s : Int, lookupState REPLSET_MEMBER_STATES s = none →
      get_state_name s = "UNKNOWN" ∧
      get_state_name 6 = "UNKNOWN" ∧
      get_state_description s ≠ get_state_description 6 ∧
      (∀ (h : String) (last : Int) (srv rs : String),
        (create_event h last s srv rs).tags = (create_event h last 6 srv rs).tags ∧
        (create_event h last s srv rs).msg_title =
          (create_event h last 6 srv rs).msg_title) := by
  intro s hs
  have hname : get_state_name s = "UNKNOWN" := by simp [get_state_name, hs]
  have hname6 : get_state_name 6 = "UNKNOWN" := rfl
  refine ⟨hname, hname6, ?_, ?_⟩
  · intro hdesc
    have hd : get_state_description s =
        "Replset state " ++ toString s ++ " is unknown to the Datadog agent" := by
      simp [get_state_description, hs]
    rw [hd] at hdesc
    have h2 := congrArg String.data hdesc
    rw [String.data_append, String.data_append] at h2
    have h3 := congrArg (fun l => l.headD ' ') h2
    simp [get_state_description, lookupState, REPLSET_MEMBER_STATES] at h3
  · intro h last srv rs
    constructor
    · simp [create_event, hname, hname6]
    · simp [create_event, hname, hname6]

/-- C10 witness: the amended theorem applied at code 42. -/
theorem c10_unknown_state_witness :
    get_state_name 42 = "UNKNOWN" ∧
    get_state_description 42 ≠ get_state_description 6 :=
  ⟨(c10_unknown_state 42 rfl).1, (c10_unknown_state 42 rfl).2.2.1⟩

/-- Lookup distributes over concatenation, preferring the left list. -/
theorem lookupKey_append {α : Type} (a b : List (String × α)) (p : String) :
    lookupKey (a ++ b) p = (lookupKey a p).or (lookupKey b p) := by
  induction a with
  | nil => simp [lookupKey]
  | cons hd rest ih =>
    by_cases h : hd.1 = p
    · simp [lookupKey, h]
    · simp [lookupKey, h, ih]

/-- Deleting a key removes it. -/
theorem lookupKey_eraseKey_self {α : Type} (q : List (String × α)) (k : String) :
    lookupKey (eraseKey q k) k = none := by
  induction q with
  | nil => rfl
  | cons hd rest ih =>
    by_cases h : hd.1 = k
    · simpa [eraseKey, List.filter, h] using ih
    · simpa [eraseKey, List.filter, h, lookupKey] using ih

/-- What a successful validation guarantees: the prefix check passed and
the prefix was dot-stripped, and the command was extracted from the query
document, its value taken as the collection and its key deleted from the
body. -/
theorem validateQuery_ok_spec (rq : RawQuery) (p : Prepared)
    (hval : validateQuery rq = .ok p) :
    truthyOptStr rq.metricPfx = true ∧
    p.metricPfxStr = rstripDots (rq.metricPfx.getD "") ∧
    (∀ q, rq.query = some q →
      extractCommandFromMongoQuery q = .ok p.command ∧
      lookupKey q p.command = some p.collection ∧
      p.body = eraseKey q p.command) := by
  by_cases h : truthyOptStr rq.metricPfx = true
  case neg =>
    have h2 : truthyOptStr rq.metricPfx = false := by
      cases hb : truthyOptStr rq.metricPfx
      · rfl
      · exact absurd hb h
    simp [validateQuery, h2] at hval
  case pos =>
    rcases hq : rq.query with _ | q
    · simp [validateQuery, h, hq] at hval
    · by_cases hqe : q.isEmpty = true
      · simp [validateQuery, h, hq, hqe] at hval
      · rcases hcmd : extractCommandFromMongoQuery q with e | cmd
        · simp [validateQuery, h, hq, hqe, hcmd] at hval
        · rcases hcoll : lookupKey q cmd with _ | coll
          · simp [validateQuery, h, hq, hqe, hcmd, hcoll] at hval
          · by_cases hmem : cmd ∈ ALLOWED_CUSTOM_QUERIES_COMMANDS
            case neg =>
              simp [validateQuery, h, hq, hqe, hcmd, hcoll, hmem] at hval
            case pos =>
              by_cases hcount : cmd = "count"
              case pos =>
                subst hcount
                by_cases hct : truthyOptStr rq.count_type = true
                case neg =>
                  have h2 : truthyOptStr rq.count_type = false := by
                    cases hb : truthyOptStr rq.count_type
                    · rfl
                    · exact absurd hb hct
                  simp [validateQuery, ALLOWED_CUSTOM_QUERIES_COMMANDS, h, hq, hqe,
                    hcmd, hcoll, h2] at hval
                case pos =>
                  rcases hsm : getSubmissionMethod (rq.count_type.getD "") with e | k
                  · simp [validateQuery, ALLOWED_CUSTOM_QUERIES_COMMANDS, h, hq, hqe,
                      hcmd, hcoll, hct, hsm] at hval
                  · simp [validateQuery, ALLOWED_CUSTOM_QUERIES_COMMANDS, h, hq, hqe,
                      hcmd, hcoll, hct, hsm] at hval
                    refine ⟨h, ?_, ?_⟩
                    · rw [← hval]
                    · intro q2 hq2
                      cases hq2
                      rw [← hval]
                      exact ⟨hcmd, hcoll, rfl⟩
              case neg =>
                rcases hf : rq.fields with _ | flds
                · simp [validateQuery, h, hq, hqe, hcmd, hcoll, hmem, hcount, hf] at hval
                · by_cases hfe : flds.isEmpty = true
                  · simp [validateQuery, h, hq, hqe, hcmd, hcoll, hmem, hcount, hf,
                      hfe] at hval
                  · rcases hvf : validateFields (rstripDots (rq.metricPfx.getD "")) flds
                      with e | vflds
                    · simp [validateQuery, h, hq, hqe, hcmd, hcoll, hmem, hcount, hf,
                        hfe, hvf] at hval
                    · simp [validateQuery, h, hq, hqe, hcmd, hcoll, hmem, hcount, hf,
                        hfe, hvf] at hval
                      refine ⟨h, ?_, ?_⟩
                      · rw [← hval]
                      · intro q2 hq2
                        cases hq2
                        rw [← hval]
                        exact ⟨hcmd, hcoll, rfl⟩

/-- C3 counterexample: a query document containing both `count` and
`find` — two recognized command keys — is not rejected: command
extraction returns the first hit in the fixed order and validation of the
whole descriptor succeeds, against the claim that more than one
recognized key fails validation. -/
theorem c3_counterexample :
    containsKey [("count", BVal.str "c1"), ("find", BVal.str "c2")] "count" = true ∧
    containsKey [("count", BVal.str "c1"), ("find", BVal.str "c2")] "find" = true ∧
    extractCommandFromMongoQuery [("count", BVal.str "c1"), ("find", BVal.str "c2")] =
      .ok "count" ∧
    (validateQuery c3rq).isOk = true :=
  ⟨rfl, rfl, rfl, rfl⟩

/-- C3 (amended): a query with none of the recognized command keys fails
with a descriptive error; otherwise the first present key in the fixed
order aggregate, count, find is chosen (several recognized keys are not
rejected); the chosen key's value becomes the target collection name and
that key — and only that key — is removed from the command body before
execution. -/
theorem c3_command_extraction :
    (∀ q : List (String × BVal),
      ((containsKey q "aggregate" = false ∧ containsKey q "count" = false ∧
          containsKey q "find" = false) →
        extractCommandFromMongoQuery q =
          .error ⟨"ValueError", "Custom query command must be of type [aggregate, count, find]"⟩) ∧
      (∀ c, extractCommandFromMongoQuery q = .ok c ↔
        ((c = "aggregate" ∧ containsKey q "aggregate" = true) ∨
         (c = "count" ∧ containsKey q "aggregate" = false ∧ containsKey q "count" = true) ∨
         (c = "find" ∧ containsKey q "aggregate" = false ∧ containsKey q "count" = false ∧
          containsKey q "find" = true)))) ∧
    (∀ (rq : RawQuery) (q : List (String × BVal)) (p : Prepared),
      rq.query = some q → validateQuery rq = .ok p →
      extractCommandFromMongoQuery q = .ok p.command ∧
      lookupKey q p.command = some p.collection ∧
      p.body = eraseKey q p.command ∧
      containsKey p.body p.command = false) := by
  constructor
  · intro q
    constructor
    · intro ⟨hA, hC, hF⟩
      simp [extractCommandFromMongoQuery, ALLOWED_CUSTOM_QUERIES_COMMANDS, List.find?,
        hA, hC, hF]
    · intro c
      cases hA : containsKey q "aggregate" <;> cases hC : containsKey q "count" <;>
        cases hF : containsKey q "find" <;>
        simp [extractCommandFromMongoQuery, ALLOWED_CUSTOM_QUERIES_COMMANDS, List.find?,
          hA, hC, hF] <;> tauto
  · intro rq q p hq hval
    obtain ⟨-, -, hspec⟩ := validateQuery_ok_spec rq p hval
    obtain ⟨hcmd, hcoll, hbody⟩ := hspec q hq
    exact ⟨hcmd, hcoll, hbody, by
      simp [containsKey, hbody, lookupKey_eraseKey_self]⟩

/-- C3 witness: the amended theorem applied at the validated two-command
query, with the chosen command, its collection value, and the body with
only the chosen key removed. -/
theorem c3_command_extraction_witness :
    extractCommandFromMongoQuery [("count", BVal.str "c1"), ("find", BVal.str "c2")] =
      .ok "count" ∧
    lookupKey [("count", BVal.str "c1"), ("find", BVal.str "c2")] "count" =
      some (BVal.str "c1") ∧
    [("find", BVal.str "c2")] =
      eraseKey [("count", BVal.str "c1"), ("find", BVal.str "c2")] "count" ∧
    containsKey [("find", BVal.str "c2")] "count" = false :=
  c3_command_extraction.2 c3rq [("count", BVal.str "c1"), ("find", BVal.str "c2")]
    ⟨"custq", "count", .str "c1", [("find", .str "c2")], [], .countMode .gauge⟩ rfl rfl

/-- C4 counterexample: a `metric_prefix` consisting only of dots is
truthy, so the presence check passes; the trailing-dot stripping then
leaves an empty effective prefix, and the whole query executes without
any validation error — against the claim that such a descriptor fails
validation. -/
theorem c4_counterexample :
    truthyOptStr (some "...") = true ∧
    rstripDots "..." = "" ∧
    collectCustomMetricsForQuery c4rq [] c4res =
      .ok [⟨.rate, "", .num 42, ["collection:c1"]⟩] :=
  ⟨rfl, rfl, rfl⟩

/-- C4 (amended): a missing or empty `metric_prefix` fails with a
descriptive error before any command result is consulted (for every
command result), and under the per-query handler only that query is
aborted and logged; but the non-emptiness check precedes the
trailing-dot stripping, so a prefix of only dots passes validation and
the effective prefix is the configured value with trailing dots
stripped — possibly empty. -/
theorem c4_metric_prefix_check :
    ∀ (rq : RawQuery) (tags : List String) (res : CommandResult),
      (truthyOptStr rq.metricPfx = false →
        collectCustomMetricsForQuery rq tags res =
          .error ⟨"ValueError", "Custom query field `metric_prefix` is required"⟩ ∧
        customQueryStep tags (rq, res) = ([], [.customQueryFailed rq.metricPfx])) ∧
      (∀ p, validateQuery rq = .ok p →
        truthyOptStr rq.metricPfx = true ∧
        p.metricPfxStr = rstripDots (rq.metricPfx.getD "")) := by
  intro rq tags res
  constructor
  · intro h
    have hv : validateQuery rq =
        .error ⟨"ValueError", "Custom query field `metric_prefix` is required"⟩ := by
      simp [validateQuery, h]
    refine ⟨?_, ?_⟩
    · simp [collectCustomMetricsForQuery, hv]
    · simp [customQueryStep, collectCustomMetricsForQuery, hv]
  · intro p hval
    obtain ⟨h1, h2, -⟩ := validateQuery_ok_spec rq p hval
    exact ⟨h1, h2⟩

/-- C4 witness: the amended theorem applied at a descriptor with an empty
prefix. -/
theorem c4_metric_prefix_check_witness :
    collectCustomMetricsForQuery
        { metricPfx := some "", query := none, count_type := none, fields := none,
          qtags := [] } [] c4res =
      .error ⟨"ValueError", "Custom query field `metric_prefix` is required"⟩ :=
  ((c4_metric_prefix_check
      { metricPfx := some "", query := none, count_type := none, fields := none,
        qtags := [] } [] c4res).1 rfl).1

/-- One scan step leaves the accumulated tag list as `tagPairStep`
computes it, whatever the queued metrics are. -/
theorem rowFieldStep_fst_eq (mp : String) (row : List (String × BVal)) (t : List String)
    (i : List (SubmitKind × String × Int)) (f : VField) :
    (rowFieldStep mp row (t, i) f).1 = tagPairStep row t f := by
  obtain ⟨fn, onm, fk⟩ := f
  unfold rowFieldStep tagPairStep
  cases hl : lookupKey row fn
  · cases fk <;> simp [hl]
  · rename_i v
    cases fk
    · simp [hl]
    · cases hp : pyFloat v <;> simp [hl, hp]

/-- The tag projection appends. -/
theorem tagPairStep_append (row : List (String × BVal)) (a b : List String) (f : VField) :
    tagPairStep row (a ++ b) f = a ++ tagPairStep row b f := by
  obtain ⟨fn, onm, fk⟩ := f
  unfold tagPairStep
  cases fk <;> cases hl : lookupKey row fn <;> simp [hl]

/-- Folding the tag projection from any start tag list. -/
theorem foldl_tagPairStep (row : List (String × BVal)) (flds : List VField) :
    ∀ acc, flds.foldl (tagPairStep row) acc = acc ++ rowTagPairs flds row := by
  induction flds with
  | nil => intro acc; simp [rowTagPairs]
  | cons f rest ih =>
    intro acc
    have h1 : tagPairStep row acc f = acc ++ tagPairStep row [] f := by
      simpa using tagPairStep_append row acc [] f
    rw [List.foldl_cons, ih]
    have h2 : rowTagPairs (f :: rest) row = tagPairStep row [] f ++ rowTagPairs rest row := by
      show (f :: rest).foldl (tagPairStep row) [] = _
      rw [List.foldl_cons]
      exact ih (tagPairStep row [] f)
    rw [h2, h1, List.append_assoc]

/-- The final row tag set of the field scan is the base tags followed by
the row tag pairs, independently of the queued metrics. -/
theorem rowScan_fst (mp : String) (row : List (String × BVal)) (flds : List VField) :
    ∀ (t : List String) (i : List (SubmitKind × String × Int)),
      (flds.foldl (rowFieldStep mp row) (t, i)).1 = t ++ rowTagPairs flds row := by
  induction flds with
  | nil => intro t i; simp [rowTagPairs]
  | cons f rest ih =>
    intro t i
    have heta : rowFieldStep mp row (t, i) f =
        ((rowFieldStep mp row (t, i) f).1, (rowFieldStep mp row (t, i) f).2) := rfl
    rw [List.foldl_cons, heta, ih, rowFieldStep_fst_eq]
    have h1 : tagPairStep row t f = t ++ tagPairStep row [] f := by
      simpa using tagPairStep_append row t [] f
    have h2 : rowTagPairs (f :: rest) row = tagPairStep row [] f ++ rowTagPairs rest row := by
      show (f :: rest).foldl (tagPairStep row) [] = _
      rw [List.foldl_cons]
      exact foldl_tagPairStep row rest (tagPairStep row [] f)
    rw [h1, h2, List.append_assoc]

/-- C8: each find/aggregate result row is scanned independently; a
declared field that is absent from a row, or whose value fails numeric
coercion, drops only that field of that row; every metric emitted from a
row carries that row's full tag set (the base tags plus the row's
tag-typed pairs); and the spec example — two rows, one lacking the
declared field — emits exactly one metric. -/
theorem c8_row_scan :
    (∀ (mp : String) (tags : List String) (row : List (String × BVal))
        (fs1 fs2 : List VField) (f : VField),
      containsKey row f.fieldName = false →
        processRow mp (fs1 ++ f :: fs2) tags row = processRow mp (fs1 ++ fs2) tags row) ∧
    (∀ (mp : String) (tags : List String) (row : List (String × BVal))
        (fs1 fs2 : List VField) (f : VField) (k : SubmitKind) (v : BVal),
      f.fkind = .metricField k → lookupKey row f.fieldName = some v → pyFloat v = none →
        processRow mp (fs1 ++ f :: fs2) tags row = processRow mp (fs1 ++ fs2) tags row) ∧
    (∀ (mp : String) (flds : List VField) (tags : List String)
        (row : List (String × BVal)) (s : Submission),
      s ∈ processRow mp flds tags row → s.tags = tags ++ rowTagPairs flds row) ∧
    (∀ (mp : String) (flds : List VField) (tags : List String)
        (r : List (String × BVal)) (rs : List (List (String × BVal))),
      ((r :: rs).map (processRow mp flds tags)).flatten =
        processRow mp flds tags r ++ (rs.map (processRow mp flds tags)).flatten) ∧
    collectCustomMetricsForQuery c8rq ["base"] c8res =
      .ok [⟨.gauge, "custq.val", .num 1, ["base", "collection:stuff", "tagn:x"]⟩] := by
  refine ⟨?_, ?_, ?_, ?_, rfl⟩
  · intro mp tags row fs1 fs2 f h
    have hl : lookupKey row f.fieldName = none := by
      cases hl : lookupKey row f.fieldName
      · rfl
      · rw [containsKey, hl] at h
        exact absurd h (by simp)
    have hstep : ∀ acc, rowFieldStep mp row acc f = acc := by
      intro acc
      simp [rowFieldStep, hl]
    simp [processRow, List.foldl_append, hstep]
  · intro mp tags row fs1 fs2 f k v hk hl hp
    have hstep : ∀ acc, rowFieldStep mp row acc f = acc := by
      intro acc
      simp [rowFieldStep, hl, hk, hp]
    simp [processRow, List.foldl_append, hstep]
  · intro mp flds tags row s hs
    simp only [processRow, List.mem_map] at hs
    obtain ⟨i, -, hi⟩ := hs
    rw [← hi]
    exact rowScan_fst mp row flds tags []
  · intro mp flds tags r rs
    simp

/-- C8 witness: a field absent from the empty row is dropped without
affecting the rest of the scan. -/
theorem c8_row_scan_witness :
    processRow "p" [⟨"v", "v", .metricField .gauge⟩] [] [] = processRow "p" [] [] [] :=
  c8_row_scan.1 "p" [] [] [] [] ⟨"v", "v", .metricField .gauge⟩ rfl

/-- C9: a `top` metric entry submits at most two metrics; it submits two
exactly when the resolved name ends in `countps`, and then the second
submission is a gauge duplicate of the first under the name with the
trailing `ps` stripped, carrying the same value and tags; a single
submission never has a name ending in `countps`. The two closed instances
show the duplicate (`commands.count`, a rate) and a non-duplicated
neighbour (`commands.time`). -/
theorem c9_top_countps_dup :
    (∀ (mtc : List (String × MetricDef)) (doc : BVal) (tags : List String) (m : String)
        (subs : List Submission),
      topMetricBlock mtc doc tags m = .ok subs →
        (∀ s1 s2 rest, subs = s1 :: s2 :: rest →
          rest = [] ∧ strEndsWith s1.name "countps" = true ∧ s2.kind = .gauge ∧
          s2.name = strDropRight2 s1.name ∧ s2.value = s1.value ∧ s2.tags = s1.tags) ∧
        (∀ s, subs = [s] → strEndsWith s.name "countps" = false)) ∧
    topMetricBlock (buildMetricListToCollect ["top"]).1
        (.doc [("commands", .doc [("count", .num 3)])]) ["t"] "commands.count" =
      .ok [⟨.rate, "mongodb.usage.commands.countps", .num 3, ["t"]⟩,
           ⟨.gauge, "mongodb.usage.commands.count", .num 3, ["t"]⟩] ∧
    topMetricBlock (buildMetricListToCollect ["top"]).1
        (.doc [("commands", .doc [("time", .num 4)])]) ["t"] "commands.time" =
      .ok [⟨.gauge, "mongodb.usage.commands.time", .num 4, ["t"]⟩] := by
  refine ⟨?_, rfl, rfl⟩
  intro mtc doc tags m subs h
  simp only [topMetricBlock] at h
  rcases hw : walkPath doc (pySplitC m '.') with e | v
  · rw [hw] at h
    simp only [Except.ok.injEq] at h
    subst h
    exact ⟨fun s1 s2 rest hab => absurd hab (by simp),
      fun s hs => absurd hs (by simp)⟩
  · rw [hw] at h
    cases v with
    | num n =>
      rcases hr : resolveMetric mtc m "usage" with e | kn
      · rw [hr] at h
        simp at h
      · obtain ⟨k, nm⟩ := kn
        rw [hr] at h
        dsimp only at h
        cases hend : strEndsWith nm "countps"
        · rw [hend] at h
          simp only [if_neg, Bool.false_eq_true, List.append_nil, Except.ok.injEq,
            ite_false] at h
          subst h
          refine ⟨fun s1 s2 rest hab => absurd hab (by simp), ?_⟩
          intro s hs
          have : s = (⟨k, nm, .num n, tags⟩ : Submission) := by
            simpa using hs.symm
          rw [this]
          exact hend
        · rw [hend] at h
          simp only [if_pos, Except.ok.injEq, ite_true] at h
          subst h
          refine ⟨?_, ?_⟩
          · intro s1 s2 rest hab
            have h1 : (⟨k, nm, .num n, tags⟩ : Submission) = s1 := by
              simpa using congrArg (fun l => l.headD s1) hab
            have h2 : (⟨.gauge, strDropRight2 nm, .num n, tags⟩ : Submission) = s2 := by
              simpa using congrArg (fun l => (l.drop 1).headD s2) hab
            have h3 : rest = [] := by
              simpa using (congrArg (fun l => l.drop 2) hab).symm
            rw [← h1, ← h2]
            exact ⟨h3, hend, rfl, rfl, rfl, rfl⟩
          · intro s hs
            exact absurd hs (by simp)
    | str sv => simp at h
    | doc fs => simp at h
    | arr xs => simp at h

/-- C9 witness: the characterization applied at the concrete
`commands.count` block. -/
theorem c9_top_countps_dup_witness :
    strEndsWith "mongodb.usage.commands.countps" "countps" = true ∧
    (⟨.gauge, "mongodb.usage.commands.count", .num 3, ["t"]⟩ : Submission).kind = .gauge :=
  ⟨((c9_top_countps_dup.1 (buildMetricListToCollect ["top"]).1
      (.doc [("commands", .doc [("count", .num 3)])]) ["t"] "commands.count"
      [⟨.rate, "mongodb.usage.commands.countps", .num 3, ["t"]⟩,
       ⟨.gauge, "mongodb.usage.commands.count", .num 3, ["t"]⟩]
      c9_top_countps_dup.2.1).1
      ⟨.rate, "mongodb.usage.commands.countps", .num 3, ["t"]⟩
      ⟨.gauge, "mongodb.usage.commands.count", .num 3, ["t"]⟩ [] rfl).2.1,
   ((c9_top_countps_dup.1 (buildMetricListToCollect ["top"]).1
      (.doc [("commands", .doc [("count", .num 3)])]) ["t"] "commands.count"
      [⟨.rate, "mongodb.usage.commands.countps", .num 3, ["t"]⟩,
       ⟨.gauge, "mongodb.usage.commands.count", .num 3, ["t"]⟩]
      c9_top_countps_dup.2.1).1
      ⟨.rate, "mongodb.usage.commands.countps", .num 3, ["t"]⟩
      ⟨.gauge, "mongodb.usage.commands.count", .num 3, ["t"]⟩ [] rfl).2.2.1⟩

/-- A successful lookup comes from an entry of the list. -/
theorem lookupKey_mem {α : Type} (d : List (String × α)) (k : String) (v : α)
    (h : lookupKey d k = some v) : (k, v) ∈ d := by
  induction d with
  | nil => simp [lookupKey] at h
  | cons hd rest ih =>
    rcases hd with ⟨k0, v0⟩
    by_cases hk : k0 = k
    · simp [lookupKey, hk] at h
      simp [hk, h]
    · simp [lookupKey, hk] at h
      simp [ih h]

/-- No additional-category table declares a field path that the default
plan declares (checked over the concrete catalog). -/
theorem default_avail_disjoint :
    (((buildMetricListToCollect []).1.map Prod.fst).all
      (fun pth => AVAILABLE_METRICS.all (fun t => !containsKey t.2 pth))) = true := by
  decide

/-- A path of the default plan is absent from every additional table. -/
theorem default_key_not_in_avail (pth : String)
    (hp : containsKey (buildMetricListToCollect []).1 pth = true) :
    ∀ (o : String) (tbl : List (String × MetricDef)),
      lookupKey AVAILABLE_METRICS o = some tbl → containsKey tbl pth = false := by
  intro o tbl ho
  rcases hv : lookupKey (buildMetricListToCollect []).1 pth with _ | v
  · rw [containsKey, hv] at hp
    exact absurd hp (by simp)
  · have hpm : pth ∈ (buildMetricListToCollect []).1.map Prod.fst := by
      exact List.mem_map.mpr ⟨(pth, v), lookupKey_mem _ _ _ hv, rfl⟩
    have hall := List.all_eq_true.mp default_avail_disjoint pth hpm
    have htm := List.all_eq_true.mp hall (o, tbl) (lookupKey_mem _ _ _ ho)
    simpa using htm

/-- One loop iteration appends its log lines, and its plan component does
not depend on the logs accumulated so far. -/
theorem buildOption_decompose (plan : List (String × MetricDef)) (logs : List LogEntry)
    (o : String) :
    buildOption (plan, logs) o =
      ((buildOption (plan, []) o).1, logs ++ (buildOption (plan, []) o).2) := by
  unfold buildOption
  rcases lookupKey AVAILABLE_METRICS o with _ | tbl
  · by_cases h : containsKey DEFAULT_METRICS o <;> simp [h]
  · by_cases he : tbl.isEmpty <;> by_cases h : containsKey DEFAULT_METRICS o <;> simp [he, h]

/-- The whole loop appends its log lines, and its plan component does not
depend on the logs accumulated so far. -/
theorem foldl_buildOption_decompose (opts : List String) :
    ∀ (plan : List (String × MetricDef)) (logs : List LogEntry),
      opts.foldl buildOption (plan, logs) =
        ((opts.foldl buildOption (plan, [])).1, logs ++ (opts.foldl buildOption (plan, [])).2) := by
  induction opts with
  | nil => intro plan logs; simp
  | cons o rest ih =>
    intro plan logs
    rw [List.foldl_cons, List.foldl_cons, buildOption_decompose plan logs o,
      buildOption_decompose plan [] o]
    rw [List.nil_append]
    rw [ih ((buildOption (plan, []) o).1) (logs ++ (buildOption (plan, []) o).2),
      ih ((buildOption (plan, []) o).1) ((buildOption (plan, []) o).2)]
    simp

/-- Appending one more requested option re-runs exactly one iteration. -/
theorem buildMetricListToCollect_snoc (opts : List String) (o : String) :
    buildMetricListToCollect (opts ++ [o]) =
      buildOption (buildMetricListToCollect opts) o := by
  simp [buildMetricListToCollect, List.foldl_append]

/-- C6: the plan always keeps every default-category definition intact; a
requested name naming a default category is logged as deprecated and
leaves the plan unchanged, wherever it occurs in the request list; an
unrecognized name is logged as a warning and leaves the plan unchanged; a
known additional category merges exactly its declared field paths over
the plan built so far, so later requests win on collision. -/
theorem c6_plan_builder :
    (∀ (opts : List String) (pth : String),
      containsKey (buildMetricListToCollect []).1 pth = true →
      lookupKey (buildMetricListToCollect opts).1 pth =
        lookupKey (buildMetricListToCollect []).1 pth) ∧
    (∀ (opts1 opts2 : List String) (o : String),
      lookupKey AVAILABLE_METRICS o = none → containsKey DEFAULT_METRICS o = true →
      (buildMetricListToCollect (opts1 ++ o :: opts2)).1 =
        (buildMetricListToCollect (opts1 ++ opts2)).1 ∧
      LogEntry.deprecatedOption o ∈ (buildMetricListToCollect (opts1 ++ o :: opts2)).2) ∧
    (∀ (opts1 opts2 : List String) (o : String),
      lookupKey AVAILABLE_METRICS o = none → containsKey DEFAULT_METRICS o = false →
      (buildMetricListToCollect (opts1 ++ o :: opts2)).1 =
        (buildMetricListToCollect (opts1 ++ opts2)).1 ∧
      LogEntry.unrecognizedOption o ∈ (buildMetricListToCollect (opts1 ++ o :: opts2)).2) ∧
    (∀ (opts : List String) (o : String) (tbl : List (String × MetricDef)) (pth : String),
      lookupKey AVAILABLE_METRICS o = some tbl → tbl.isEmpty = false →
      lookupKey (buildMetricListToCollect (opts ++ [o])).1 pth =
        ((lookupKey tbl pth).or (lookupKey (buildMetricListToCollect opts).1 pth)) ∧
      LogEntry.addedOption o ∈ (buildMetricListToCollect (opts ++ [o])).2) := by
  have hsplit : ∀ (opts1 opts2 : List String) (o : String),
      buildMetricListToCollect (opts1 ++ o :: opts2) =
        opts2.foldl buildOption (buildOption (buildMetricListToCollect opts1) o) := by
    intro opts1 opts2 o
    simp [buildMetricListToCollect, List.foldl_append]
  have hsplit2 : ∀ (opts1 opts2 : List String),
      buildMetricListToCollect (opts1 ++ opts2) =
        opts2.foldl buildOption (buildMetricListToCollect opts1) := by
    intro opts1 opts2
    simp [buildMetricListToCollect, List.foldl_append]
  have hskipped : ∀ (opts1 opts2 : List String) (o : String) (entry : LogEntry),
      buildOption (buildMetricListToCollect opts1) o =
        ((buildMetricListToCollect opts1).1, (buildMetricListToCollect opts1).2 ++ [entry]) →
      (buildMetricListToCollect (opts1 ++ o :: opts2)).1 =
        (buildMetricListToCollect (opts1 ++ opts2)).1 ∧
      entry ∈ (buildMetricListToCollect (opts1 ++ o :: opts2)).2 := by
    intro opts1 opts2 o entry hstep
    have heta : opts2.foldl buildOption (buildMetricListToCollect opts1) =
        opts2.foldl buildOption
          ((buildMetricListToCollect opts1).1, (buildMetricListToCollect opts1).2) := rfl
    constructor
    · rw [hsplit, hsplit2, hstep, heta,
        foldl_buildOption_decompose opts2 (buildMetricListToCollect opts1).1
          ((buildMetricListToCollect opts1).2 ++ [entry]),
        foldl_buildOption_decompose opts2 (buildMetricListToCollect opts1).1
          (buildMetricListToCollect opts1).2]
    · rw [hsplit, hstep,
        foldl_buildOption_decompose opts2 (buildMetricListToCollect opts1).1
          ((buildMetricListToCollect opts1).2 ++ [entry])]
      simp
  refine ⟨?_, ?_, ?_, ?_⟩
  · intro opts pth hp
    induction opts using List.reverseRecOn with
    | nil => rfl
    | append_singleton rest o ih =>
      rw [buildMetricListToCollect_snoc]
      unfold buildOption
      rcases ho : lookupKey AVAILABLE_METRICS o with _ | tbl
      · by_cases hd : containsKey DEFAULT_METRICS o <;> simp [hd, ih]
      · by_cases he : tbl.isEmpty
        · by_cases hd : containsKey DEFAULT_METRICS o <;> simp [he, hd, ih]
        · have hnone : lookupKey tbl pth = none := by
            have hc := default_key_not_in_avail pth hp o tbl ho
            rcases hl : lookupKey tbl pth with _ | v
            · rfl
            · rw [containsKey, hl] at hc
              exact absurd hc (by simp)
          simp [he, dictUpdate, lookupKey_append, hnone, ih]
  · intro opts1 opts2 o ho hd
    refine hskipped opts1 opts2 o (LogEntry.deprecatedOption o) ?_
    unfold buildOption
    rw [ho]
    simp [hd]
  · intro opts1 opts2 o ho hd
    refine hskipped opts1 opts2 o (LogEntry.unrecognizedOption o) ?_
    unfold buildOption
    rw [ho]
    simp [hd]
  · intro opts o tbl pth ho he
    rw [buildMetricListToCollect_snoc]
    unfold buildOption
    rw [ho]
    constructor
    · simp [he, dictUpdate, lookupKey_append]
    · simp [he]

/-- C6 witness: requesting the known additional category `top` merges
exactly its field paths over the default plan, here observed at
`commands.count`, and is logged as added. -/
theorem c6_plan_builder_witness :
    lookupKey (buildMetricListToCollect ([] ++ ["top"])).1 "commands.count" =
      ((lookupKey TOP_METRICS "commands.count").or
        (lookupKey (buildMetricListToCollect []).1 "commands.count")) ∧
    LogEntry.addedOption "top" ∈ (buildMetricListToCollect ([] ++ ["top"])).2 :=
  c6_plan_builder.2.2.2 [] "top" TOP_METRICS "commands.count" rfl rfl

/-- The right-boundary test is unaffected by appending text that starts
with a dot. -/
theorem rightBoundary_append_dot (rest t : List Char) :
    rightBoundary (rest ++ '.' :: t) = rightBoundary rest := by
  cases rest <;> simp [rightBoundary, isWordChar]

/-- A list without any occurrence of the token is left unchanged by the
substitution pass. -/
theorem subTokenChars_id (x : Char) (repl : List Char) :
    ∀ l, hasTokenIn x l = false → subTokenChars x repl l = l := by
  intro l
  induction l with
  | nil => intro _; rfl
  | cons c rest ih =>
    cases rest with
    | nil => intro _; rfl
    | cons c2 rest2 =>
      intro h
      simp only [hasTokenIn] at h
      by_cases hcond : c = '.' ∧ c2 = x ∧ rightBoundary rest2 = true
      · rw [if_pos hcond] at h
        exact absurd h (by simp)
      · rw [if_neg hcond] at h
        simp only [subTokenChars]
        rw [if_neg hcond, ih h]

/-- Appending the token `.X` to any text appends the replacement to the
substituted text (whole-word match at the very end always fires). -/
theorem subToken_append_token (x : Char) (hx : x ≠ '.') (repl t : List Char)
    (ht : t = ['.', x]) :
    ∀ l, subTokenChars x repl (l ++ t) = subTokenChars x repl l ++ repl := by
  subst ht
  have main : ∀ (n : Nat) (l : List Char), l.length ≤ n →
      subTokenChars x repl (l ++ ['.', x]) = subTokenChars x repl l ++ repl := by
    intro n
    induction n with
    | zero =>
      intro l hl
      have hnil : l = [] := List.length_eq_zero.mp (Nat.le_zero.mp hl)
      subst hnil
      simp [subTokenChars, rightBoundary]
    | succ n ihn =>
      intro l hl
      cases l with
      | nil =>
        simp [subTokenChars, rightBoundary]
      | cons c rest =>
        cases rest with
        | nil =>
          have hcond1 : ¬ (c = '.' ∧ ('.' : Char) = x ∧ rightBoundary [x] = true) := by
            rintro ⟨-, h2, -⟩
            exact hx h2.symm
          show subTokenChars x repl (c :: '.' :: [x]) = subTokenChars x repl [c] ++ repl
          have e1 : subTokenChars x repl (c :: '.' :: [x]) =
              if c = '.' ∧ ('.' : Char) = x ∧ rightBoundary [x] = true then
                repl ++ subTokenChars x repl [x]
              else c :: subTokenChars x repl ('.' :: [x]) := rfl
          have e2 : subTokenChars x repl ('.' :: [x]) =
              if ('.' : Char) = '.' ∧ x = x ∧ rightBoundary ([] : List Char) = true then
                repl ++ subTokenChars x repl []
              else '.' :: subTokenChars x repl [x] := rfl
          rw [e1, if_neg hcond1, e2, if_pos ⟨rfl, rfl, rfl⟩]
          simp [subTokenChars]
        | cons c2 rest2 =>
          have hlen : rest2.length + 2 ≤ n + 1 := by simpa using hl
          have hrb : rightBoundary (rest2 ++ ['.', x]) = rightBoundary rest2 :=
            rightBoundary_append_dot rest2 [x]
          show subTokenChars x repl (c :: c2 :: (rest2 ++ ['.', x])) = _
          by_cases hcond : c = '.' ∧ c2 = x ∧ rightBoundary rest2 = true
          · have hcond' : c = '.' ∧ c2 = x ∧ rightBoundary (rest2 ++ ['.', x]) = true := by
              rw [hrb]
              exact hcond
            simp only [subTokenChars]
            rw [if_pos hcond', if_pos hcond]
            rw [ihn rest2 (by omega)]
            simp
          · have hcond' : ¬ (c = '.' ∧ c2 = x ∧ rightBoundary (rest2 ++ ['.', x]) = true) := by
              rw [hrb]
              exact hcond
            simp only [subTokenChars]
            rw [if_neg hcond', if_neg hcond]
            rw [show c2 :: (rest2 ++ ['.', x]) = (c2 :: rest2) ++ ['.', x] from rfl]
            rw [ihn (c2 :: rest2) (by simp; omega)]
            rfl
  intro l
  exact main l.length l le_rfl

/-- Appending token-free text that starts with a dot commutes with the
substitution pass. -/
theorem subToken_append_clean (x : Char) (hx : x ≠ '.') (repl t : List Char)
    (ht : hasTokenIn x t = false) (hh : t.head? = some '.') :
    ∀ l, subTokenChars x repl (l ++ t) = subTokenChars x repl l ++ t := by
  obtain ⟨t0, t2, rfl⟩ : ∃ t0 t2, t = t0 :: t2 := by
    cases t with
    | nil => simp at hh
    | cons a b => exact ⟨a, b, rfl⟩
  obtain rfl : t0 = '.' := by simpa using hh
  have main : ∀ (n : Nat) (l : List Char), l.length ≤ n →
      subTokenChars x repl (l ++ '.' :: t2) = subTokenChars x repl l ++ '.' :: t2 := by
    intro n
    induction n with
    | zero =>
      intro l hl
      have hnil : l = [] := List.length_eq_zero.mp (Nat.le_zero.mp hl)
      subst hnil
      simpa using subTokenChars_id x repl _ ht
    | succ n ihn =>
      intro l hl
      cases l with
      | nil => simpa using subTokenChars_id x repl _ ht
      | cons c rest =>
        cases rest with
        | nil =>
          have hcond1 : ¬ (c = '.' ∧ ('.' : Char) = x ∧ rightBoundary t2 = true) := by
            rintro ⟨-, h2, -⟩
            exact hx h2.symm
          show subTokenChars x repl (c :: '.' :: t2) = subTokenChars x repl [c] ++ '.' :: t2
          simp only [subTokenChars]
          rw [if_neg hcond1, subTokenChars_id x repl _ ht]
          rfl
        | cons c2 rest2 =>
          have hlen : rest2.length + 2 ≤ n + 1 := by simpa using hl
          have hrb : rightBoundary (rest2 ++ '.' :: t2) = rightBoundary rest2 :=
            rightBoundary_append_dot rest2 t2
          show subTokenChars x repl (c :: c2 :: (rest2 ++ '.' :: t2)) = _
          by_cases hcond : c = '.' ∧ c2 = x ∧ rightBoundary rest2 = true
          · have hcond' : c = '.' ∧ c2 = x ∧ rightBoundary (rest2 ++ '.' :: t2) = true := by
              rw [hrb]
              exact hcond
            simp only [subTokenChars]
            rw [if_pos hcond', if_pos hcond]
            rw [ihn rest2 (by omega)]
            simp
          · have hcond' : ¬ (c = '.' ∧ c2 = x ∧ rightBoundary (rest2 ++ '.' :: t2) = true) := by
              rw [hrb]
              exact hcond
            simp only [subTokenChars]
            rw [if_neg hcond', if_neg hcond]
            rw [show c2 :: (rest2 ++ '.' :: t2) = (c2 :: rest2) ++ '.' :: t2 from rfl]
            rw [ihn (c2 :: rest2) (by simp; omega)]
            rfl
  intro l
  exact main l.length l le_rfl

/-- Appending `.R` appends `.shared` to the fully substituted text. -/
theorem charSubsAll_append_R (l : List Char) :
    charSubsAll (l ++ ".R".data) = charSubsAll l ++ ".shared".data := by
  simp only [charSubsAll, CASE_SENSITIVE_METRIC_NAME_SUFFIXES, List.foldl_cons,
    List.foldl_nil]
  rw [subToken_append_token 'R' (by decide) ".shared".data ".R".data (by decide),
    subToken_append_clean 'r' (by decide) ".intent_shared".data ".shared".data
      (by decide) (by decide),
    subToken_append_clean 'W' (by decide) ".exclusive".data ".shared".data
      (by decide) (by decide),
    subToken_append_clean 'w' (by decide) ".intent_exclusive".data ".shared".data
      (by decide) (by decide)]

/-- Appending `.r` appends `.intent_shared` to the fully substituted
text. -/
theorem charSubsAll_append_r (l : List Char) :
    charSubsAll (l ++ ".r".data) = charSubsAll l ++ ".intent_shared".data := by
  simp only [charSubsAll, CASE_SENSITIVE_METRIC_NAME_SUFFIXES, List.foldl_cons,
    List.foldl_nil]
  rw [subToken_append_clean 'R' (by decide) ".shared".data ".r".data
      (by decide) (by decide),
    subToken_append_token 'r' (by decide) ".intent_shared".data ".r".data (by decide),
    subToken_append_clean 'W' (by decide) ".exclusive".data ".intent_shared".data
      (by decide) (by decide),
    subToken_append_clean 'w' (by decide) ".intent_exclusive".data ".intent_shared".data
      (by decide) (by decide)]

/-- Appending `.W` appends `.exclusive` to the fully substituted text. -/
theorem charSubsAll_append_W (l : List Char) :
    charSubsAll (l ++ ".W".data) = charSubsAll l ++ ".exclusive".data := by
  simp only [charSubsAll, CASE_SENSITIVE_METRIC_NAME_SUFFIXES, List.foldl_cons,
    List.foldl_nil]
  rw [subToken_append_clean 'R' (by decide) ".shared".data ".W".data
      (by decide) (by decide),
    subToken_append_clean 'r' (by decide) ".intent_shared".data ".W".data
      (by decide) (by decide),
    subToken_append_token 'W' (by decide) ".exclusive".data ".W".data (by decide),
    subToken_append_clean 'w' (by decide) ".intent_exclusive".data ".exclusive".data
      (by decide) (by decide)]

/-- Appending `.w` appends `.intent_exclusive` to the fully substituted
text. -/
theorem charSubsAll_append_w (l : List Char) :
    charSubsAll (l ++ ".w".data) = charSubsAll l ++ ".intent_exclusive".data := by
  simp only [charSubsAll, CASE_SENSITIVE_METRIC_NAME_SUFFIXES, List.foldl_cons,
    List.foldl_nil]
  rw [subToken_append_clean 'R' (by decide) ".shared".data ".w".data
      (by decide) (by decide),
    subToken_append_clean 'r' (by decide) ".intent_shared".data ".w".data
      (by decide) (by decide),
    subToken_append_clean 'W' (by decide) ".exclusive".data ".w".data
      (by decide) (by decide),
    subToken_append_token 'w' (by decide) ".intent_exclusive".data ".w".data (by decide)]

/-- C7 counterexample: the pattern `\.R\b` matches the whole-word token
anywhere, not only as a suffix: a name with an interior `.R` segment —
which the claim says is unaffected — is rewritten. -/
theorem c7_counterexample :
    applySuffixSubs "locks.R.total" = "locks.shared.total" ∧
    applySuffixSubs "locks.R.total" ≠ "locks.R.total" :=
  ⟨rfl, by decide⟩

/-- C7 (amended): each of the four access-mode tokens is replaced
case-sensitively wherever it occurs as the whole-word pattern `\.X\b` —
in particular always when it ends the name, where the replacement is
appended to the substituted remainder — and a name without any whole-word
token occurrence (such as a mixed-case interior segment) is unchanged. -/
theorem c7_case_sensitive_subs :
    (∀ s : String,
      applySuffixSubs (s ++ ".R") = applySuffixSubs s ++ ".shared" ∧
      applySuffixSubs (s ++ ".r") = applySuffixSubs s ++ ".intent_shared" ∧
      applySuffixSubs (s ++ ".W") = applySuffixSubs s ++ ".exclusive" ∧
      applySuffixSubs (s ++ ".w") = applySuffixSubs s ++ ".intent_exclusive") ∧
    (∀ s : String,
      hasTokenIn 'R' s.data = false → hasTokenIn 'r' s.data = false →
      hasTokenIn 'W' s.data = false → hasTokenIn 'w' s.data = false →
      applySuffixSubs s = s) ∧
    applySuffixSubs "locks.Collection.acquireCount.R" =
      "locks.Collection.acquireCount.shared" := by
  refine ⟨?_, ?_, rfl⟩
  · intro s
    refine ⟨?_, ?_, ?_, ?_⟩
    · apply String.ext
      show charSubsAll (s ++ ".R").data = (applySuffixSubs s ++ ".shared").data
      rw [String.data_append, String.data_append, charSubsAll_append_R]
      rfl
    · apply String.ext
      show charSubsAll (s ++ ".r").data = (applySuffixSubs s ++ ".intent_shared").data
      rw [String.data_append, String.data_append, charSubsAll_append_r]
      rfl
    · apply String.ext
      show charSubsAll (s ++ ".W").data = (applySuffixSubs s ++ ".exclusive").data
      rw [String.data_append, String.data_append, charSubsAll_append_W]
      rfl
    · apply String.ext
      show charSubsAll (s ++ ".w").data = (applySuffixSubs s ++ ".intent_exclusive").data
      rw [String.data_append, String.data_append, charSubsAll_append_w]
      rfl
  · intro s h1 h2 h3 h4
    apply String.ext
    show charSubsAll s.data = s.data
    simp only [charSubsAll, CASE_SENSITIVE_METRIC_NAME_SUFFIXES, List.foldl_cons,
      List.foldl_nil]
    rw [subTokenChars_id 'R' ".shared".data s.data h1,
      subTokenChars_id 'r' ".intent_shared".data s.data h2,
      subTokenChars_id 'W' ".exclusive".data s.data h3,
      subTokenChars_id 'w' ".intent_exclusive".data s.data h4]

/-- C7 witness: a catalog name with mixed-case interior segments and no
whole-word token is unchanged. -/
theorem c7_case_sensitive_subs_witness :
    applySuffixSubs "globalLock.lockTime" = "globalLock.lockTime" :=
  c7_case_sensitive_subs.2.1 "globalLock.lockTime" (by decide) (by decide)
    (by decide) (by decide)

/-- C5 counterexample: a generic error in the replica block (replication
info) is not caught at the orchestrator boundary: the cycle aborts with
it, nothing is logged, and none of the remaining features runs — although
the configured custom query on its own would have produced a metric. -/
theorem c5_counterexample :
    isSwallowedReplErr c5err = false ∧
    (runCheck c5inpErr).fatal = some c5err ∧
    (runCheck c5inpErr).mainMetrics = [] ∧
    (runCheck c5inpErr).topMetrics = [] ∧
    (runCheck c5inpErr).customMetrics = [] ∧
    (runCheck c5inpErr).logs = [] ∧
    (customPhase c5inpErr.customQueries ["db:admin"]).1.length = 1 :=
  ⟨rfl, rfl, rfl, rfl, rfl, rfl, rfl⟩

/-- C5 (amended): an error local to a custom query, to index statistics,
to `top` usage statistics or to per-collection statistics is caught at
the orchestrator boundary and logged, and changes nothing outside its own
feature — replacing all four feature inputs at once leaves every other
output of the cycle unchanged. A replication-info failure, however, is
only swallowed (silently, and with tags, events and state untouched) when
it is the recognized `OperationFailure`; any other replication error
aborts the whole cycle before the main metric loop and the features. -/
theorem c5_feature_isolation :
    (∀ (inp : CheckInput) (x1 : Fetch (List (String × BVal)))
        (x2 : List (String × Fetch (List (List (String × BVal)))))
        (x3 : List (String × Fetch (List (String × BVal))))
        (x4 : List (RawQuery × CommandResult)),
      (runCheck { inp with
          topTotals := x1
          indexStatsFetch := x2
          collStatsFetch := x3
          customQueries := x4 }).fatal = (runCheck inp).fatal ∧
      (runCheck { inp with
          topTotals := x1
          indexStatsFetch := x2
          collStatsFetch := x3
          customQueries := x4 }).serviceCheckOk = (runCheck inp).serviceCheckOk ∧
      (runCheck { inp with
          topTotals := x1
          indexStatsFetch := x2
          collStatsFetch := x3
          customQueries := x4 }).events = (runCheck inp).events ∧
      (runCheck { inp with
          topTotals := x1
          indexStatsFetch := x2
          collStatsFetch := x3
          customQueries := x4 }).lastStateByServer = (runCheck inp).lastStateByServer ∧
      (runCheck { inp with
          topTotals := x1
          indexStatsFetch := x2
          collStatsFetch := x3
          customQueries := x4 }).mainMetrics = (runCheck inp).mainMetrics ∧
      (runCheck { inp with
          topTotals := x1
          indexStatsFetch := x2
          collStatsFetch := x3
          customQueries := x4 }).statsMetrics = (runCheck inp).statsMetrics ∧
      (runCheck { inp with
          topTotals := x1
          indexStatsFetch := x2
          collStatsFetch := x3
          customQueries := x4 }).oplogMetrics = (runCheck inp).oplogMetrics) ∧
    (∀ (e : PyError) (mtc : List (String × MetricDef)) (tags : List String),
      topPhase true (.err e) mtc tags = ([], [.topFailed])) ∧
    (∀ (c : String) (e : PyError)
        (rest : List (String × Fetch (List (List (String × BVal))))) (tags : List String),
      collectIndexesStats ((c, .err e) :: rest) tags =
        ((collectIndexesStats rest tags).1,
         .indexStatsFailed c :: (collectIndexesStats rest tags).2)) ∧
    (∀ (db : String) (tags : List String) (c : String) (e : PyError)
        (rest : List (String × Fetch (List (String × BVal)))),
      collStatsPhase db tags ((c, .err e) :: rest) = ([], [.collectionFailed])) ∧
    (∀ (ctags : List String) (rq : RawQuery) (res : CommandResult) (e : PyError)
        (qs : List (RawQuery × CommandResult)),
      collectCustomMetricsForQuery rq ctags res = .error e →
      customPhase ((rq, res) :: qs) ctags =
        ((customPhase qs ctags).1,
         .customQueryFailed rq.metricPfx :: (customPhase qs ctags).2)) ∧
    (∀ (inp : CheckInput) (e : PyError),
      inp.replSetFetch = .err e → isSwallowedReplErr e = true →
      runCheck inp = runCheck { inp with replicaCheck := false }) ∧
    (∀ (inp : CheckInput) (st : BVal) (e : PyError),
      inp.serverStatus = .ok st → statusOkZero st = false →
      inp.replicaCheck = true → inp.replSetFetch = .err e →
      isSwallowedReplErr e = false →
      (runCheck inp).fatal = some e ∧ (runCheck inp).mainMetrics = [] ∧
      (runCheck inp).topMetrics = [] ∧ (runCheck inp).collMetrics = [] ∧
      (runCheck inp).customMetrics = [] ∧ (runCheck inp).logs = []) := by
  refine ⟨?_, ?_, ?_, ?_, ?_, ?_, ?_⟩
  · intro inp x1 x2 x3 x4
    have hpre : runCheckPre { inp with
        topTotals := x1
        indexStatsFetch := x2
        collStatsFetch := x3
        customQueries := x4 } = runCheckPre inp := rfl
    cases hf : (runCheckPre inp).fatalPre <;>
      cases ho : (runCheckPre inp).oplogFatal <;>
      simp [runCheck, hpre, hf, ho]
  · intro e mtc tags
    rfl
  · intro c e rest tags
    simp [collectIndexesStats]
  · intro db tags c e rest
    rfl
  · intro ctags rq res e qs h
    simp [customPhase, customQueryStep, h]
  · intro inp e hrf hsw
    have h1 : replicaPhase inp = replicaPhase { inp with replicaCheck := false } := by
      funext st
      cases hrc : inp.replicaCheck
      · simp [replicaPhase, hrc]
      · simp [replicaPhase, hrc, hrf, hsw]
    have h2 : runCheckPre inp = runCheckPre { inp with replicaCheck := false } := by
      unfold runCheckPre
      rw [h1]
    unfold runCheck
    rw [h2]
  · intro inp st e hss hok hrc hrf hsw
    have hr : ∀ st1, replicaPhase inp st1 = .error e := by
      intro st1
      simp [replicaPhase, hrc, hrf, hsw]
    have hpre : runCheckPre inp =
        ⟨some true, [], inp.lastStateByServer,
         (buildMetricListToCollect inp.additionalMetrics).2,
         (buildMetricListToCollect inp.additionalMetrics).1, inp.tags, none, [], [], [],
         some e, none⟩ := by
      simp only [runCheckPre, hss]
      rw [if_neg (by simp [hok]), hr]
    simp [runCheck, hpre]

/-- C5 witness: a custom query with a missing `metric_prefix` is caught
by the per-query handler and logged, leaving nothing else affected. -/
theorem c5_feature_isolation_witness :
    customPhase [(c5badrq, c4res)] [] =
      (([] : List Submission), [LogEntry.customQueryFailed c5badrq.metricPfx]) :=
  c5_feature_isolation.2.2.2.2.1 [] c5badrq c4res
    ⟨"ValueError", "Custom query field `metric_prefix` is required"⟩ [] rfl

end MongoCheck
